import Mathlib

set_option maxHeartbeats 1000000

/-!
Verification development for the patchwork compiler core
(crates/patchwork-compiler/src/codegen.rs and the parser front end).

The generator is embedded as explicit state-passing functions over the
AST that `codegen.rs` consumes.  The snapshot of `ast.rs` in the tree is
an earlier milestone (it still calls workers "tasks" and has no shell or
pattern nodes), so the AST below is reconstructed from the exhaustive
`match` arms of `codegen.rs` itself, which pins every constructor and
payload the generator can see, together with the data model of spec §3.
-/

namespace Patchwork

/-- Binary operators (ast.rs `BinOp`, extended with the arms matched by
codegen.rs `generate_binary_op`). -/
inductive BinOp where
  | add | sub | mul | div | eq | notEq | lt | gt | and | or | pipe | range | assign
deriving DecidableEq, Repr

/-- Unary operators; codegen.rs `generate_unary_op` matches Not, Neg and Throw. -/
inductive UnOp where
  | not | neg | throw
deriving DecidableEq, Repr

/-- Redirect operators matched by codegen.rs `generate_shell_redirect`. -/
inductive RedirectOp where
  | out | append | input | errOut | errToOut
deriving DecidableEq, Repr

/-- Binding patterns matched by codegen.rs `generate_var_decl`
(Identifier, Ignore, Object, Array).  The generator never inspects the
payload of the destructuring patterns (it matches them with `_`), so the
payloads are modelled as plain field-name lists. -/
inductive Pattern where
  | identifier (name : String)
  | ignore
  | object (fields : List String)
  | array (items : List String)
deriving DecidableEq, Repr

mutual

/-- Expressions, one constructor per arm of codegen.rs `generate_expr`.
String literals carry their ordered part list directly (ast.rs
`StringLiteral` is a struct holding exactly `parts`). -/
inductive Expr where
  | identifier (name : String)
  | number (n : String)
  | string (parts : List StringPart)
  | trueLit
  | falseLit
  | array (items : List Expr)
  | object (fields : List ObjField)
  | binary (op : BinOp) (left : Expr) (right : Expr)
  | unary (op : UnOp) (operand : Expr)
  | call (callee : Expr) (args : List Expr)
  | member (object : Expr) (field : String)
  | index (object : Expr) (idx : Expr)
  | paren (inner : Expr)
  | postIncrement (operand : Expr)
  | postDecrement (operand : Expr)
  | await (inner : Expr)
  | bareCommand (name : String) (args : List CommandArg)
  | commandSubst (cmd : Expr)
  | shellPipe (left : Expr) (right : Expr)
  | shellAnd (left : Expr) (right : Expr)
  | shellOr (left : Expr) (right : Expr)
  | shellRedirect (command : Expr) (op : RedirectOp) (target : Expr)
  | think (pb : List PromptItem)
  | ask (pb : List PromptItem)
  | doExpr (b : Block)

/-- Parts of a string literal (ast.rs `StringPart`). -/
inductive StringPart where
  | text (s : String)
  | interpolation (e : Expr)

/-- Object-literal field: key plus optional value (shorthand when absent),
as consumed by codegen.rs `generate_expr`, `Expr::Object` arm. -/
inductive ObjField where
  | mk (key : String) (value : Option Expr)

/-- Shell command arguments matched by the argument loops of codegen.rs
(`CommandArg::Literal` and `CommandArg::String`). -/
inductive CommandArg where
  | literal (s : String)
  | string (parts : List StringPart)

/-- Prompt block items (ast.rs `PromptItem`); the generator rejects the
enclosing think/ask without looking inside. -/
inductive PromptItem where
  | text (s : String)
  | code (b : Block)

/-- Statements, one constructor per arm of codegen.rs `generate_statement`.
The `TypeDecl` arm is matched with `{ .. }` and skipped, so its payload is
not modelled. -/
inductive Statement where
  | varDecl (pattern : Pattern) (init : Option Expr)
  | expr (e : Expr)
  | ifStmt (condition : Expr) (thenBlock : Block) (elseBlock : Option Block)
  | whileStmt (condition : Expr) (body : Block)
  | forIn (var : String) (iter : Expr) (body : Block)
  | ret (e : Option Expr)
  | breakStmt
  | succeed
  | typeDecl

/-- Block of statements (ast.rs `Block`). -/
inductive Block where
  | mk (statements : List Statement)

end

/-- Worker/function parameter: name only (ast.rs `Param`; type
annotations are parsed but ignored by codegen.rs `generate_params`). -/
structure Param where
  name : String
deriving DecidableEq, Repr

/-- Worker declaration as consumed by codegen.rs `generate_worker`. -/
structure WorkerDecl where
  name : String
  params : List Param
  body : Block

/-- Function declaration as consumed by codegen.rs `generate_function`:
name, parameters, body, and the exported flag. -/
structure FunctionDecl where
  name : String
  params : List Param
  body : Block
  is_exported : Bool

/-- Top-level items, one constructor per arm of codegen.rs `generate`.
Import, Skill, Trait and Type items are matched with `_` payloads and
skipped by the generator, so their payloads are not modelled. -/
inductive Item where
  | worker (w : WorkerDecl)
  | function (f : FunctionDecl)
  | importItem
  | skill
  | traitItem
  | typeItem

/-- A complete program (ast.rs `Program`). -/
structure Program where
  items : List Item

/-- Compile errors produced by the code generator.  `error.rs` is not in
the tree; codegen.rs only ever constructs `CompileError::Unsupported`
(the `write!` calls into a `String` buffer cannot fail), so that is the
single constructor needed to embed the generator. -/
inductive CompileError where
  | Unsupported (msg : String)
deriving DecidableEq, Repr

/-- Generator state: indentation level and the output buffer
(codegen.rs `CodeGenerator`). -/
structure CodeGenerator where
  indent : Nat
  output : String
deriving DecidableEq, Repr

/-- CodeGenerator::new. -/
def CodeGenerator.new : CodeGenerator := { indent := 0, output := "" }

/-- Append text to the output buffer (the `push`/`push_str`/`write!`
calls of codegen.rs; consecutive appends are merged). -/
def CodeGenerator.push (g : CodeGenerator) (s : String) : CodeGenerator :=
  { g with output := g.output ++ s }

/-- Model of `self.indent += 1`. -/
def CodeGenerator.incIndent (g : CodeGenerator) : CodeGenerator :=
  { g with indent := g.indent + 1 }

/-- Model of `self.indent -= 1`. -/
def CodeGenerator.decIndent (g : CodeGenerator) : CodeGenerator :=
  { g with indent := g.indent - 1 }

/-- Two spaces per indentation level, as pushed by the loop in
codegen.rs `write_indent`. -/
def indentStr : Nat → String
  | 0 => ""
  | n + 1 => indentStr n ++ "  "

/-- CodeGenerator::write_indent. -/
def write_indent (g : CodeGenerator) : CodeGenerator :=
  g.push (indentStr g.indent)

/-- Result of one generator step: the Rust methods return
`Result<()>` while mutating `&mut self`, so both outcomes carry the
post-state of the generator. -/
inductive GenRes where
  | ok (g : CodeGenerator)
  | err (e : CompileError) (g : CodeGenerator)
deriving DecidableEq, Repr

/-- Sequencing of generator steps: the `?` operator of the Rust source
(an error short-circuits, keeping the buffer as it stands). -/
def GenRes.andThen (r : GenRes) (k : CodeGenerator → GenRes) : GenRes :=
  match r with
  | .ok g => k g
  | .err e g => .err e g

/-- Post-state of a generator step, whichever way it went. -/
def GenRes.st : GenRes → CodeGenerator
  | .ok g => g
  | .err _ g => g

/-- Per-character expansion of codegen.rs `escape_string`.  The source
chains five single-character `str::replace` passes (backslash, quote,
newline, carriage return, tab); since no replacement text contains a
character replaced by a later pass and every pattern is a single
character, the chain acts independently on each source character, which
is what this function does. -/
def escChar (c : Char) : List Char :=
  if c = '\\' then ['\\', '\\']
  else if c = '"' then ['\\', '"']
  else if c = '\n' then ['\\', 'n']
  else if c = '\r' then ['\\', 'r']
  else if c = '\t' then ['\\', 't']
  else [c]

/-- Character-list form of codegen.rs `escape_string`. -/
def escapeChars : List Char → List Char
  | [] => []
  | c :: cs => escChar c ++ escapeChars cs

/-- codegen.rs `escape_string`. -/
def escape_string (s : String) : String :=
  ⟨escapeChars s.data⟩

/-- Character-list form of codegen.rs `escape_template_literal`.  The
source chains three left-to-right `str::replace` passes (backslash,
backtick, and the two-character sequence dollar-brace); no pass creates
or destroys an occurrence handled by another, so the chain equals this
single left-to-right scan. -/
def escTmplChars : List Char → List Char
  | [] => []
  | '\\' :: cs => '\\' :: '\\' :: escTmplChars cs
  | '`' :: cs => '\\' :: '`' :: escTmplChars cs
  | '$' :: '\x7b' :: cs => '\\' :: '$' :: '\x7b' :: escTmplChars cs
  | c :: cs => c :: escTmplChars cs

/-- codegen.rs `escape_template_literal`. -/
def escape_template_literal (s : String) : String :=
  ⟨escTmplChars s.data⟩

mutual

/-- CodeGenerator::generate_block (codegen.rs): indent, statement,
newline, for each statement in order. -/
def generate_block (g : CodeGenerator) (b : Block) : GenRes :=
  match b with
  | .mk stmts => generate_stmts g stmts
termination_by 10 * sizeOf b

/-- Statement loop of `generate_block`. -/
def generate_stmts (g : CodeGenerator) (ss : List Statement) : GenRes :=
  match ss with
  | [] => .ok g
  | s :: rest =>
    (generate_statement (write_indent g) s).andThen fun g1 =>
      generate_stmts (g1.push "\n") rest
termination_by 10 * sizeOf ss

/-- CodeGenerator::generate_statement (codegen.rs). -/
def generate_statement (g : CodeGenerator) (s : Statement) : GenRes :=
  match s with
  | .varDecl pattern init => generate_var_decl g pattern init
  | .expr e => (generate_expr g e).andThen fun g1 => .ok (g1.push ";")
  | .ifStmt c t eb => generate_if g c t eb
  | .whileStmt c b => generate_while g c b
  | .forIn v it b => generate_for_in g v it b
  | .ret oe =>
    match oe with
    | some e => (generate_expr (g.push "return ") e).andThen fun g1 => .ok (g1.push ";")
    | none => .ok (g.push "return;")
  | .breakStmt => .ok (g.push "break;")
  | .succeed => .ok (g.push "// succeed statement (not yet implemented)")
  | .typeDecl => .ok g
termination_by 10 * sizeOf s

/-- CodeGenerator::generate_var_decl (codegen.rs): identifier pattern
binds, ignore pattern evaluates the initializer only, destructuring
patterns are Unsupported errors. -/
def generate_var_decl (g : CodeGenerator) (p : Pattern) (init : Option Expr) : GenRes :=
  match p with
  | .identifier name =>
    match init with
    | some e => (generate_expr (g.push ("let " ++ name ++ " = ")) e).andThen fun g1 => .ok (g1.push ";")
    | none => .ok (g.push ("let " ++ name ++ ";"))
  | .ignore =>
    match init with
    | some e => (generate_expr g e).andThen fun g1 => .ok (g1.push ";")
    | none => .ok g
  | .object _ => .err (.Unsupported "Object destructuring not yet supported in Phase 2") g
  | .array _ => .err (.Unsupported "Array destructuring not yet supported in Phase 2") g

/-- CodeGenerator::generate_if (codegen.rs). -/
def generate_if (g : CodeGenerator) (c : Expr) (t : Block) (eb : Option Block) : GenRes :=
  (generate_expr (g.push "if (") c).andThen fun g1 =>
    (generate_block ((g1.push ") \x7b\n").incIndent) t).andThen fun g2 =>
      match eb with
      | none => .ok ((write_indent g2.decIndent).push "\x7d")
      | some blk =>
        (generate_block ((((write_indent g2.decIndent).push "\x7d").push " else \x7b\n").incIndent) blk).andThen fun g4 =>
          .ok ((write_indent g4.decIndent).push "\x7d")
termination_by 10 * (sizeOf c + sizeOf t + sizeOf eb) + 1

/-- CodeGenerator::generate_while (codegen.rs). -/
def generate_while (g : CodeGenerator) (c : Expr) (b : Block) : GenRes :=
  (generate_expr (g.push "while (") c).andThen fun g1 =>
    (generate_block ((g1.push ") \x7b\n").incIndent) b).andThen fun g2 =>
      .ok ((write_indent g2.decIndent).push "\x7d")
termination_by 10 * (sizeOf c + sizeOf b) + 1

/-- CodeGenerator::generate_for_in (codegen.rs). -/
def generate_for_in (g : CodeGenerator) (v : String) (it : Expr) (b : Block) : GenRes :=
  (generate_expr (g.push ("for (let " ++ v ++ " of ")) it).andThen fun g1 =>
    (generate_block ((g1.push ") \x7b\n").incIndent) b).andThen fun g2 =>
      .ok ((write_indent g2.decIndent).push "\x7d")
termination_by 10 * (sizeOf it + sizeOf b) + 1

/-- CodeGenerator::generate_expr (codegen.rs), one case per match arm. -/
def generate_expr (g : CodeGenerator) (e : Expr) : GenRes :=
  match e with
  | .identifier name => .ok (g.push name)
  | .number n => .ok (g.push n)
  | .string parts => generate_string_literal g parts
  | .trueLit => .ok (g.push "true")
  | .falseLit => .ok (g.push "false")
  | .array items => (generate_expr_list (g.push "[") items true).andThen fun g1 => .ok (g1.push "]")
  | .object fields => (generate_obj_fields (g.push "\x7b ") fields true).andThen fun g1 => .ok (g1.push " \x7d")
  | .binary op l r => generate_binary_op g op l r
  | .unary op o => generate_unary_op g op o
  | .call callee args =>
    (generate_expr g callee).andThen fun g1 =>
      (generate_expr_list (g1.push "(") args true).andThen fun g2 => .ok (g2.push ")")
  | .member o f => (generate_expr g o).andThen fun g1 => .ok (g1.push ("." ++ f))
  | .index o i =>
    (generate_expr g o).andThen fun g1 =>
      (generate_expr (g1.push "[") i).andThen fun g2 => .ok (g2.push "]")
  | .paren inner => (generate_expr (g.push "(") inner).andThen fun g1 => .ok (g1.push ")")
  | .postIncrement o => (generate_expr g o).andThen fun g1 => .ok (g1.push "++")
  | .postDecrement o => (generate_expr g o).andThen fun g1 => .ok (g1.push "\x2d\x2d")
  | .await inner => generate_expr (g.push "await ") inner
  | .bareCommand name args => generate_shell_command g name args
  | .commandSubst cmd => generate_command_subst g cmd
  | .shellPipe l r => generate_shell_chain g "await $shellPipe([" l r
  | .shellAnd l r => generate_shell_chain g "await $shellAnd([" l r
  | .shellOr l r => generate_shell_chain g "await $shellOr([" l r
  | .shellRedirect c op t => generate_shell_redirect g c op t
  | .think _ => .err (.Unsupported "Prompt blocks not yet supported in Phase 2") g
  | .ask _ => .err (.Unsupported "Prompt blocks not yet supported in Phase 2") g
  | .doExpr _ => .err (.Unsupported "Do expressions not yet supported in Phase 2") g
termination_by 10 * sizeOf e

/-- Comma-separated expression loops of codegen.rs (array literals and
call arguments): `if i > 0 push ", "`. -/
def generate_expr_list (g : CodeGenerator) (es : List Expr) (first : Bool) : GenRes :=
  match es with
  | [] => .ok g
  | e :: rest =>
    (generate_expr (if first then g else g.push ", ") e).andThen fun g1 =>
      generate_expr_list g1 rest false
termination_by 10 * sizeOf es

/-- Object-literal field loop of codegen.rs `generate_expr`,
`Expr::Object` arm (shorthand fields emit the key alone). -/
def generate_obj_fields (g : CodeGenerator) (fs : List ObjField) (first : Bool) : GenRes :=
  match fs with
  | [] => .ok g
  | .mk key val :: rest =>
    match val with
    | some v =>
      (generate_expr (((if first then g else g.push ", ").push key).push ": ") v).andThen fun g1 =>
        generate_obj_fields g1 rest false
    | none => generate_obj_fields ((if first then g else g.push ", ").push key) rest false
termination_by 10 * sizeOf fs

/-- CodeGenerator::generate_string_literal (codegen.rs): a single plain
Text part emits a double-quoted escaped literal, anything else emits a
backtick template literal. -/
def generate_string_literal (g : CodeGenerator) (parts : List StringPart) : GenRes :=
  match _h : parts with
  | [.text t] => .ok (g.push ("\"" ++ escape_string t ++ "\""))
  | x => (generate_template_parts (g.push "`") x).andThen fun g1 => .ok (g1.push "`")
termination_by 10 * sizeOf parts + 1
decreasing_by
  all_goals subst_vars
  all_goals simp_wf
  all_goals try omega

/-- Shared template-literal part loop: the identical
`StringPart::Text`/`StringPart::Interpolation` loop bodies of
`generate_string_literal`, `generate_shell_command`,
`generate_command_subst` and `generate_shell_expr_for_pipe`. -/
def generate_template_parts (g : CodeGenerator) (parts : List StringPart) : GenRes :=
  match parts with
  | [] => .ok g
  | .text t :: rest => generate_template_parts (g.push (escape_template_literal t)) rest
  | .interpolation e :: rest =>
    (generate_expr (g.push "$\x7b") e).andThen fun g1 =>
      generate_template_parts (g1.push "\x7d") rest
termination_by 10 * sizeOf parts

/-- CodeGenerator::generate_binary_op (codegen.rs): the left operand is
generated first, then the operator decides; Pipe and Range are
Unsupported errors. -/
def generate_binary_op (g : CodeGenerator) (op : BinOp) (l r : Expr) : GenRes :=
  (generate_expr g l).andThen fun g1 =>
    match op with
    | .add => generate_expr (g1.push " + ") r
    | .sub => generate_expr (g1.push " - ") r
    | .mul => generate_expr (g1.push " * ") r
    | .div => generate_expr (g1.push " / ") r
    | .eq => generate_expr (g1.push " === ") r
    | .notEq => generate_expr (g1.push " !== ") r
    | .lt => generate_expr (g1.push " < ") r
    | .gt => generate_expr (g1.push " > ") r
    | .and => generate_expr (g1.push " && ") r
    | .or => generate_expr (g1.push " || ") r
    | .assign => generate_expr (g1.push " = ") r
    | .pipe => .err (.Unsupported "Use ShellPipe expression for shell pipes") g1
    | .range => .err (.Unsupported "Range operator not yet supported") g1
termination_by 10 * (sizeOf l + sizeOf r) + 1

/-- CodeGenerator::generate_unary_op (codegen.rs). -/
def generate_unary_op (g : CodeGenerator) (op : UnOp) (o : Expr) : GenRes :=
  match op with
  | .not => generate_expr (g.push "!") o
  | .neg => generate_expr (g.push "-") o
  | .throw => (generate_expr (g.push "throw new Error(String(") o).andThen fun g1 => .ok (g1.push "))")
termination_by 10 * sizeOf o + 1

/-- CodeGenerator::generate_shell_command (codegen.rs): the statement
form `await $shell(` template `)`. -/
def generate_shell_command (g : CodeGenerator) (name : String) (args : List CommandArg) : GenRes :=
  (generate_command_template (g.push "await $shell(") name args).andThen fun g1 =>
    .ok (g1.push ")")
termination_by 10 * sizeOf args + 3

/-- Backtick command template: the identical
backtick-name-arguments-backtick sequence emitted by
`generate_shell_command`, `generate_command_subst` (bare-command case)
and `generate_shell_expr_for_pipe`. -/
def generate_command_template (g : CodeGenerator) (name : String) (args : List CommandArg) : GenRes :=
  (generate_command_args (g.push ("`" ++ name)) args).andThen fun g1 => .ok (g1.push "`")
termination_by 10 * sizeOf args + 2

/-- Argument loop of the command template: a space before each argument,
literal tokens verbatim, string arguments via the template-part loop. -/
def generate_command_args (g : CodeGenerator) (args : List CommandArg) : GenRes :=
  match args with
  | [] => .ok g
  | .literal lit :: rest => generate_command_args (g.push (" " ++ lit)) rest
  | .string parts :: rest =>
    (generate_template_parts (g.push " ") parts).andThen fun g1 =>
      generate_command_args g1 rest
termination_by 10 * sizeOf args + 1

/-- CodeGenerator::generate_command_subst (codegen.rs): the expression
form with the capture flag; a bare command becomes a template, any other
expression is generated as-is. -/
def generate_command_subst (g : CodeGenerator) (cmd : Expr) : GenRes :=
  (match _h : cmd with
   | .bareCommand name args => generate_command_template (g.push "await $shell(") name args
   | x => generate_expr (g.push "await $shell(") x).andThen fun g1 =>
    .ok (g1.push ", \x7bcapture: true\x7d)")
termination_by 10 * sizeOf cmd + 5
decreasing_by
  all_goals subst_vars
  all_goals simp_wf
  all_goals try omega

/-- CodeGenerator::generate_shell_pipe / generate_shell_and /
generate_shell_or (codegen.rs): the three methods are identical except
for the helper name, which is passed here as the already-formatted
opening text. -/
def generate_shell_chain (g : CodeGenerator) (opening : String) (l r : Expr) : GenRes :=
  (generate_shell_expr_for_pipe (g.push opening) l).andThen fun g1 =>
    (generate_shell_expr_for_pipe (g1.push ", ") r).andThen fun g2 =>
      .ok (g2.push "])")
termination_by 10 * (sizeOf l + sizeOf r) + 5

/-- CodeGenerator::generate_shell_redirect (codegen.rs). -/
def generate_shell_redirect (g : CodeGenerator) (c : Expr) (op : RedirectOp) (t : Expr) : GenRes :=
  (generate_shell_expr_for_pipe (g.push "await $shellRedirect(") c).andThen fun g1 =>
    (generate_expr (g1.push (", \x27" ++
      (match op with
       | .out => ">"
       | .append => ">>"
       | .input => "<"
       | .errOut => "2>"
       | .errToOut => "2>&1") ++ "\x27, ")) t).andThen fun g2 =>
      .ok (g2.push ")")
termination_by 10 * (sizeOf c + sizeOf t) + 5

/-- CodeGenerator::generate_shell_expr_for_pipe (codegen.rs): bare
commands become templates, anything else is generated as an
expression. -/
def generate_shell_expr_for_pipe (g : CodeGenerator) (e : Expr) : GenRes :=
  match _h : e with
  | .bareCommand name args => generate_command_template g name args
  | x => generate_expr g x
termination_by 10 * sizeOf e + 4
decreasing_by
  all_goals subst_vars
  all_goals simp_wf
  all_goals try omega

end

/-- Accumulation loop of codegen.rs `generate_params`. -/
def params_loop (g : CodeGenerator) (ps : List Param) (first : Bool) : CodeGenerator :=
  match ps with
  | [] => g
  | p :: rest => params_loop ((if first then g else g.push ", ").push p.name) rest false

/-- CodeGenerator::generate_params (codegen.rs): parenthesised
comma-separated parameter names; never fails. -/
def generate_params (g : CodeGenerator) (ps : List Param) : GenRes :=
  .ok ((params_loop (g.push "(") ps true).push ")")

/-- CodeGenerator::generate_worker (codegen.rs): an exported function
whose parameters are exactly the declared ones. -/
def generate_worker (g : CodeGenerator) (w : WorkerDecl) : GenRes :=
  (generate_params (g.push ("export function " ++ w.name)) w.params).andThen fun g1 =>
    (generate_block ((g1.push " \x7b\n").incIndent) w.body).andThen fun g2 =>
      .ok ((g2.decIndent).push "\x7d\n")

/-- CodeGenerator::generate_function (codegen.rs): the `export ` marker
is emitted exactly when `is_exported` is set. -/
def generate_function (g : CodeGenerator) (f : FunctionDecl) : GenRes :=
  (generate_params (g.push ((if f.is_exported then "export " else "") ++ "function " ++ f.name)) f.params).andThen fun g1 =>
    (generate_block ((g1.push " \x7b\n").incIndent) f.body).andThen fun g2 =>
      .ok ((g2.decIndent).push "\x7d\n")

/-- Item loop of CodeGenerator::generate (codegen.rs): workers and
functions are generated followed by a newline, all other items are
skipped. -/
def generate_items (g : CodeGenerator) (items : List Item) : GenRes :=
  match items with
  | [] => .ok g
  | .worker w :: rest => (generate_worker g w).andThen fun g1 => generate_items (g1.push "\n") rest
  | .function f :: rest => (generate_function g f).andThen fun g1 => generate_items (g1.push "\n") rest
  | _ :: rest => generate_items g rest

/-- Outcome of CodeGenerator::generate: `Ok` moves the buffer out
(`std::mem::take`), `Err` keeps the state as it stands. -/
inductive GenOut where
  | ok (s : String) (g : CodeGenerator)
  | err (e : CompileError) (g : CodeGenerator)
deriving DecidableEq, Repr

/-- CodeGenerator::generate (codegen.rs): on success the accumulated
buffer is returned and the generator keeps an emptied buffer; on error
the buffer retains everything emitted so far. -/
def generate (g : CodeGenerator) (p : Program) : GenOut :=
  match generate_items g p.items with
  | .ok g1 => .ok g1.output { g1 with output := "" }
  | .err e g1 => .err e g1

/-- Modelled from the spec: the decoder for a single escaped character of
the double-quoted string form of §4.3 (the decoding side lives in the
target language, not in this repository). -/
def decodeEsc (d : Char) : Char :=
  if d = '\\' then '\\'
  else if d = '"' then '"'
  else if d = 'n' then '\n'
  else if d = 'r' then '\r'
  else if d = 't' then '\t'
  else d

/-- Modelled from the spec: left-to-right decoding of the emitted
double-quoted literal escapes (backslash, quote, newline, carriage
return, tab), used to state the round-trip property of §8. -/
def unescapeChars : List Char → List Char
  | [] => []
  | [c] => [c]
  | c :: d :: cs => if c = '\\' then decodeEsc d :: unescapeChars cs else c :: unescapeChars (d :: cs)

/-- String form of `unescapeChars`. -/
def unescape_string (s : String) : String :=
  ⟨unescapeChars s.data⟩

mutual

/-- Does an expression contain a construct codegen.rs rejects as
Unsupported per claim C3: a prompt block (think/ask) or a standalone
do-expression (destructuring lives in statements)? -/
def hasUE : Expr → Bool
  | .string parts => hasUParts parts
  | .array items => hasUList items
  | .object fields => hasUFields fields
  | .binary _ l r => hasUE l || hasUE r
  | .unary _ o => hasUE o
  | .call c args => hasUE c || hasUList args
  | .member o _ => hasUE o
  | .index o i => hasUE o || hasUE i
  | .paren e => hasUE e
  | .postIncrement o => hasUE o
  | .postDecrement o => hasUE o
  | .await e => hasUE e
  | .bareCommand _ args => hasUArgs args
  | .commandSubst c => hasUE c
  | .shellPipe l r => hasUE l || hasUE r
  | .shellAnd l r => hasUE l || hasUE r
  | .shellOr l r => hasUE l || hasUE r
  | .shellRedirect c _ t => hasUE c || hasUE t
  | .think _ => true
  | .ask _ => true
  | .doExpr _ => true
  | _ => false
termination_by e => 10 * sizeOf e

/-- List version of `hasUE`. -/
def hasUList : List Expr → Bool
  | [] => false
  | e :: r => hasUE e || hasUList r
termination_by es => 10 * sizeOf es

/-- Object-field version of `hasUE`. -/
def hasUFields : List ObjField → Bool
  | [] => false
  | .mk _ (some v) :: r => hasUE v || hasUFields r
  | .mk _ none :: r => hasUFields r
termination_by fs => 10 * sizeOf fs

/-- String-part version of `hasUE`. -/
def hasUParts : List StringPart → Bool
  | [] => false
  | .text _ :: r => hasUParts r
  | .interpolation e :: r => hasUE e || hasUParts r
termination_by ps => 10 * sizeOf ps

/-- Command-argument version of `hasUE`. -/
def hasUArgs : List CommandArg → Bool
  | [] => false
  | .literal _ :: r => hasUArgs r
  | .string ps :: r => hasUParts ps || hasUArgs r
termination_by args => 10 * sizeOf args

/-- Does a statement contain a construct of claim C3: an object or array
destructuring pattern, a prompt block, or a standalone do-expression? -/
def hasUStmt : Statement → Bool
  | .varDecl p init =>
    (match p with | .object _ => true | .array _ => true | _ => false) ||
    (match init with | some e => hasUE e | none => false)
  | .expr e => hasUE e
  | .ifStmt c t eb =>
    hasUE c || hasUBlock t || (match eb with | some b => hasUBlock b | none => false)
  | .whileStmt c b => hasUE c || hasUBlock b
  | .forIn _ it b => hasUE it || hasUBlock b
  | .ret (some e) => hasUE e
  | _ => false
termination_by s => 10 * sizeOf s + 5

/-- Block version of `hasUStmt`. -/
def hasUBlock : Block → Bool
  | .mk ss => hasUStmts ss
termination_by b => 10 * sizeOf b

/-- Statement-list version of `hasUStmt`. -/
def hasUStmts : List Statement → Bool
  | [] => false
  | s :: r => hasUStmt s || hasUStmts r
termination_by ss => 10 * sizeOf ss

end

/-- Item version of the claim C3 containment check: only workers and
functions are lowered by the generator, so only their bodies count. -/
def hasUItem : Item → Bool
  | .worker w => hasUBlock w.body
  | .function f => hasUBlock f.body
  | _ => false

/-- Program version of the claim C3 containment check. -/
def hasUProgram (p : Program) : Bool :=
  p.items.any hasUItem

/-- Text of the parameters after the first one, each preceded by a
comma-space, exactly as the loop of codegen.rs `generate_params` emits
them. -/
def paramsTextTail : List Param → String
  | [] => ""
  | q :: rest => ", " ++ q.name ++ paramsTextTail rest

/-- Text between the parentheses emitted by codegen.rs
`generate_params`: the first parameter name, then each further name
preceded by comma-space. -/
def paramsText : List Param → String
  | [] => ""
  | p :: rest => p.name ++ paramsTextTail rest

/-- Is a string-literal part list free of interpolations? -/
def partsArePlain : List StringPart → Bool
  | [] => true
  | .text _ :: r => partsArePlain r
  | .interpolation _ :: _ => false

/-- Is a command argument a literal token or an interpolation-free
string? -/
def argIsPlain : CommandArg → Bool
  | .literal _ => true
  | .string parts => partsArePlain parts

/-- Are all command arguments plain in the sense of `argIsPlain`? -/
def argsArePlain : List CommandArg → Bool
  | [] => true
  | a :: r => argIsPlain a && argsArePlain r

/-- Template text contributed by an interpolation-free part list:
the concatenation of its escaped text segments. -/
def plainPartsText : List StringPart → String
  | [] => ""
  | .text t :: r => escape_template_literal t ++ plainPartsText r
  | .interpolation _ :: r => plainPartsText r

/-- Template text contributed by one plain command argument: a literal
token verbatim, a string argument via its escaped text segments. -/
def plainArgText : CommandArg → String
  | .literal s => s
  | .string parts => plainPartsText parts

/-- Template text of a plain argument list: each argument preceded by a
single space. -/
def plainArgsText : List CommandArg → String
  | [] => ""
  | a :: rest => " " ++ plainArgText a ++ plainArgsText rest

/-- Modelled from the spec: the fixed, explicitly recognized set of
session fields (§4.3; the open question of §9 and the Phase 3 tests
`test_session_context_access` name id, timestamp and dir).  The Phase 3
implementation that enforces this set is exercised through
`Compiler::compile` (driver.rs), which is not in the tree. -/
def sessionFields : List String := ["id", "timestamp", "dir"]

mutual

/-- Modelled from the spec: the session-access lowering of §4.3 — the
implicit session identifier cannot be referenced bare, and only the
recognized `self.session.<field>` accesses are allowed, each rewritten
to a field access on the explicit session parameter; any other use is an
invalid-session-access error carrying the offending identifier or
field.  The Phase 3 code that implements this (driver.rs and the Phase 3
generator exercised by codegen_tests.rs) is not in the tree; prompt
blocks and do-expressions are passed through untouched, since the
generator rejects them wholesale. -/
def lower_self (e : Expr) : Except String Expr :=
  match e with
  | .identifier n => if n = "self" then .error "self" else .ok (.identifier n)
  | .member o f => lower_member o f
  | .number n => .ok (.number n)
  | .string parts =>
    (match lower_parts parts with
     | .ok ps => .ok (.string ps)
     | .error n => .error n)
  | .trueLit => .ok .trueLit
  | .falseLit => .ok .falseLit
  | .array items =>
    (match lower_list items with
     | .ok xs => .ok (.array xs)
     | .error n => .error n)
  | .object fields =>
    (match lower_fields fields with
     | .ok fs => .ok (.object fs)
     | .error n => .error n)
  | .binary op l r =>
    (match lower_self l with
     | .ok l2 =>
       (match lower_self r with
        | .ok r2 => .ok (.binary op l2 r2)
        | .error n => .error n)
     | .error n => .error n)
  | .unary op o =>
    (match lower_self o with
     | .ok o2 => .ok (.unary op o2)
     | .error n => .error n)
  | .call c args =>
    (match lower_self c with
     | .ok c2 =>
       (match lower_list args with
        | .ok xs => .ok (.call c2 xs)
        | .error n => .error n)
     | .error n => .error n)
  | .index o i =>
    (match lower_self o with
     | .ok o2 =>
       (match lower_self i with
        | .ok i2 => .ok (.index o2 i2)
        | .error n => .error n)
     | .error n => .error n)
  | .paren inner =>
    (match lower_self inner with
     | .ok x => .ok (.paren x)
     | .error n => .error n)
  | .postIncrement o =>
    (match lower_self o with
     | .ok o2 => .ok (.postIncrement o2)
     | .error n => .error n)
  | .postDecrement o =>
    (match lower_self o with
     | .ok o2 => .ok (.postDecrement o2)
     | .error n => .error n)
  | .await inner =>
    (match lower_self inner with
     | .ok x => .ok (.await x)
     | .error n => .error n)
  | .bareCommand name args =>
    (match lower_args args with
     | .ok xs => .ok (.bareCommand name xs)
     | .error n => .error n)
  | .commandSubst cmd =>
    (match lower_self cmd with
     | .ok c2 => .ok (.commandSubst c2)
     | .error n => .error n)
  | .shellPipe l r =>
    (match lower_self l with
     | .ok l2 =>
       (match lower_self r with
        | .ok r2 => .ok (.shellPipe l2 r2)
        | .error n => .error n)
     | .error n => .error n)
  | .shellAnd l r =>
    (match lower_self l with
     | .ok l2 =>
       (match lower_self r with
        | .ok r2 => .ok (.shellAnd l2 r2)
        | .error n => .error n)
     | .error n => .error n)
  | .shellOr l r =>
    (match lower_self l with
     | .ok l2 =>
       (match lower_self r with
        | .ok r2 => .ok (.shellOr l2 r2)
        | .error n => .error n)
     | .error n => .error n)
  | .shellRedirect c op t =>
    (match lower_self c with
     | .ok c2 =>
       (match lower_self t with
        | .ok t2 => .ok (.shellRedirect c2 op t2)
        | .error n => .error n)
     | .error n => .error n)
  | .think pb => .ok (.think pb)
  | .ask pb => .ok (.ask pb)
  | .doExpr b => .ok (.doExpr b)
termination_by 10 * sizeOf e

/-- Member-access case of `lower_self`: the bare-`self` and
`self.session.<field>` dispatch.  A `self.session.<field>` access on a
recognized field rewrites to `session.<field>`; an unrecognized field,
any other field on `self`, and a bare `self` object are errors carrying
the offending name; any other object recurses (an inner
`<ident>.<field>` with a non-`self` identifier is already lowered). -/
def lower_member (o : Expr) (f : String) : Except String Expr :=
  match o with
  | .identifier os =>
    if os = "self" then .error f else .ok (.member (.identifier os) f)
  | .member (.identifier os) sf =>
    if os = "self" then
      if sf = "session" then
        if f ∈ sessionFields then .ok (.member (.identifier "session") f)
        else .error f
      else .error sf
    else .ok (.member (.member (.identifier os) sf) f)
  | o2 =>
    (match lower_self o2 with
     | .ok oo => .ok (.member oo f)
     | .error n => .error n)
termination_by 10 * sizeOf o + 1

/-- List version of `lower_self`. -/
def lower_list (es : List Expr) : Except String (List Expr) :=
  match es with
  | [] => .ok []
  | e :: rest =>
    (match lower_self e with
     | .ok e2 =>
       (match lower_list rest with
        | .ok xs => .ok (e2 :: xs)
        | .error n => .error n)
     | .error n => .error n)
termination_by 10 * sizeOf es

/-- Object-field version of `lower_self`. -/
def lower_fields (fs : List ObjField) : Except String (List ObjField) :=
  match fs with
  | [] => .ok []
  | .mk k (some v) :: rest =>
    (match lower_self v with
     | .ok v2 =>
       (match lower_fields rest with
        | .ok xs => .ok (.mk k (some v2) :: xs)
        | .error n => .error n)
     | .error n => .error n)
  | .mk k none :: rest =>
    (match lower_fields rest with
     | .ok xs => .ok (.mk k none :: xs)
     | .error n => .error n)
termination_by 10 * sizeOf fs

/-- String-part version of `lower_self`. -/
def lower_parts (ps : List StringPart) : Except String (List StringPart) :=
  match ps with
  | [] => .ok []
  | .text t :: rest =>
    (match lower_parts rest with
     | .ok xs => .ok (.text t :: xs)
     | .error n => .error n)
  | .interpolation e :: rest =>
    (match lower_self e with
     | .ok e2 =>
       (match lower_parts rest with
        | .ok xs => .ok (.interpolation e2 :: xs)
        | .error n => .error n)
     | .error n => .error n)
termination_by 10 * sizeOf ps

/-- Command-argument version of `lower_self`. -/
def lower_args (args : List CommandArg) : Except String (List CommandArg) :=
  match args with
  | [] => .ok []
  | .literal s :: rest =>
    (match lower_args rest with
     | .ok xs => .ok (.literal s :: xs)
     | .error n => .error n)
  | .string ps :: rest =>
    (match lower_parts ps with
     | .ok ps2 =>
       (match lower_args rest with
        | .ok xs => .ok (.string ps2 :: xs)
        | .error n => .error n)
     | .error n => .error n)
termination_by 10 * sizeOf args

/-- Statement version of `lower_self`. -/
def lower_stmt (s : Statement) : Except String Statement :=
  match s with
  | .varDecl p init =>
    (match init with
     | some e =>
       (match lower_self e with
        | .ok e2 => .ok (.varDecl p (some e2))
        | .error n => .error n)
     | none => .ok (.varDecl p none))
  | .expr e =>
    (match lower_self e with
     | .ok e2 => .ok (.expr e2)
     | .error n => .error n)
  | .ifStmt c t eb =>
    (match lower_self c with
     | .ok c2 =>
       (match lower_block t with
        | .ok t2 =>
          (match lower_opt_block eb with
           | .ok eb2 => .ok (.ifStmt c2 t2 eb2)
           | .error n => .error n)
        | .error n => .error n)
     | .error n => .error n)
  | .whileStmt c b =>
    (match lower_self c with
     | .ok c2 =>
       (match lower_block b with
        | .ok b2 => .ok (.whileStmt c2 b2)
        | .error n => .error n)
     | .error n => .error n)
  | .forIn v it b =>
    (match lower_self it with
     | .ok it2 =>
       (match lower_block b with
        | .ok b2 => .ok (.forIn v it2 b2)
        | .error n => .error n)
     | .error n => .error n)
  | .ret (some e) =>
    (match lower_self e with
     | .ok e2 => .ok (.ret (some e2))
     | .error n => .error n)
  | .ret none => .ok (.ret none)
  | .breakStmt => .ok .breakStmt
  | .succeed => .ok .succeed
  | .typeDecl => .ok .typeDecl
termination_by 10 * sizeOf s + 5

/-- Optional else-block version of `lower_self`. -/
def lower_opt_block (ob : Option Block) : Except String (Option Block) :=
  match ob with
  | none => .ok none
  | some b =>
    (match lower_block b with
     | .ok b2 => .ok (some b2)
     | .error n => .error n)
termination_by 10 * sizeOf ob + 2

/-- Block version of `lower_self`. -/
def lower_block (b : Block) : Except String Block :=
  match b with
  | .mk ss =>
    (match lower_stmts ss with
     | .ok xs => .ok (.mk xs)
     | .error n => .error n)
termination_by 10 * sizeOf b

/-- Statement-list version of `lower_self`. -/
def lower_stmts (ss : List Statement) : Except String (List Statement) :=
  match ss with
  | [] => .ok []
  | s :: rest =>
    (match lower_stmt s with
     | .ok s2 =>
       (match lower_stmts rest with
        | .ok xs => .ok (s2 :: xs)
        | .error n => .error n)
     | .error n => .error n)
termination_by 10 * sizeOf ss

end

/-- Modelled from the spec: the per-item Phase 3 session lowering of
§4.3 — a worker body becomes a callable whose first parameter is the
implicit session-context value, declared parameters following
positionally, with the session-access rule applied to worker and
function bodies.  Implemented by the driver pipeline absent from the
tree. -/
def lower_session_item (it : Item) : Except String Item :=
  match it with
  | .worker w =>
    (match lower_block w.body with
     | .ok b2 => .ok (.worker { name := w.name, params := ⟨"session"⟩ :: w.params, body := b2 })
     | .error n => .error n)
  | .function f =>
    (match lower_block f.body with
     | .ok b2 => .ok (.function { f with body := b2 })
     | .error n => .error n)
  | other => .ok other

/-- Item-list version of `lower_session_item`. -/
def lower_items : List Item → Except String (List Item)
  | [] => .ok []
  | it :: rest =>
    (match lower_session_item it with
     | .ok it2 =>
       (match lower_items rest with
        | .ok xs => .ok (it2 :: xs)
        | .error n => .error n)
     | .error n => .error n)

/-- Modelled from the spec: the whole-program session lowering pass. -/
def lower_session_program (p : Program) : Except String Program :=
  match lower_items p.items with
  | .ok xs => .ok ⟨xs⟩
  | .error n => .error n

/-- Modelled from the spec: the error taxonomy of §7 restricted to what
the Phase 3 generation pipeline can produce — UnsupportedFeature and
InvalidSessionAccess (the latter carrying the offending identifier or
field). -/
inductive Phase3Error where
  | unsupported (msg : String)
  | invalidSessionAccess (name : String)
deriving DecidableEq, Repr

/-- Outcome of the modelled Phase 3 compilation pipeline. -/
inductive GenOut3 where
  | ok (s : String) (g : CodeGenerator)
  | err (e : Phase3Error) (g : CodeGenerator)
deriving DecidableEq, Repr

/-- Modelled from the spec: the Phase 3 generation pipeline exercised by
codegen_tests.rs through `Compiler::compile` (driver.rs, absent from
the tree): the session lowering pass of §4.3 followed by the embedded
code generator. -/
def compile_v3 (g : CodeGenerator) (p : Program) : GenOut3 :=
  match lower_session_program p with
  | .error n => .err (.invalidSessionAccess n) g
  | .ok p2 =>
    match generate g p2 with
    | .ok s g2 => .ok s g2
    | .err (.Unsupported m) g2 => .err (.unsupported m) g2

mutual

/-- Does an expression contain a session access the modelled Phase 3
lowering rejects: a bare `self` reference, or a member access on `self`
outside the recognized `self.session.<field>` forms?  The traversal
mirrors `lower_self`, so recognized accesses are consumed whole and
prompt blocks and do-expressions (which the generator rejects wholesale)
are not entered. -/
def hasBadSelfE : Expr → Bool
  | .identifier n => n = "self"
  | .member o f => hasBadMember o f
  | .string ps => hasBadSelfParts ps
  | .array items => hasBadSelfList items
  | .object fields => hasBadSelfFields fields
  | .binary _ l r => hasBadSelfE l || hasBadSelfE r
  | .unary _ o => hasBadSelfE o
  | .call c args => hasBadSelfE c || hasBadSelfList args
  | .index o i => hasBadSelfE o || hasBadSelfE i
  | .paren e => hasBadSelfE e
  | .postIncrement o => hasBadSelfE o
  | .postDecrement o => hasBadSelfE o
  | .await e => hasBadSelfE e
  | .bareCommand _ args => hasBadSelfArgs args
  | .commandSubst c => hasBadSelfE c
  | .shellPipe l r => hasBadSelfE l || hasBadSelfE r
  | .shellAnd l r => hasBadSelfE l || hasBadSelfE r
  | .shellOr l r => hasBadSelfE l || hasBadSelfE r
  | .shellRedirect c _ t => hasBadSelfE c || hasBadSelfE t
  | _ => false
termination_by e => 10 * sizeOf e

/-- Member-access case of `hasBadSelfE`, mirroring `lower_member`. -/
def hasBadMember : Expr → String → Bool
  | .identifier os, _ => os = "self"
  | .member (.identifier os) sf, f =>
    if os = "self" then
      (if sf = "session" then (if f ∈ sessionFields then false else true) else true)
    else false
  | o, _ => hasBadSelfE o
termination_by o _ => 10 * sizeOf o + 1

/-- List version of `hasBadSelfE`. -/
def hasBadSelfList : List Expr → Bool
  | [] => false
  | e :: r => hasBadSelfE e || hasBadSelfList r
termination_by es => 10 * sizeOf es

/-- Object-field version of `hasBadSelfE`. -/
def hasBadSelfFields : List ObjField → Bool
  | [] => false
  | .mk _ (some v) :: r => hasBadSelfE v || hasBadSelfFields r
  | .mk _ none :: r => hasBadSelfFields r
termination_by fs => 10 * sizeOf fs

/-- String-part version of `hasBadSelfE`. -/
def hasBadSelfParts : List StringPart → Bool
  | [] => false
  | .text _ :: r => hasBadSelfParts r
  | .interpolation e :: r => hasBadSelfE e || hasBadSelfParts r
termination_by ps => 10 * sizeOf ps

/-- Command-argument version of `hasBadSelfE`. -/
def hasBadSelfArgs : List CommandArg → Bool
  | [] => false
  | .literal _ :: r => hasBadSelfArgs r
  | .string ps :: r => hasBadSelfParts ps || hasBadSelfArgs r
termination_by args => 10 * sizeOf args

/-- Statement version of `hasBadSelfE`. -/
def hasBadSelfStmt : Statement → Bool
  | .varDecl _ (some e) => hasBadSelfE e
  | .varDecl _ none => false
  | .expr e => hasBadSelfE e
  | .ifStmt c t eb =>
    hasBadSelfE c || hasBadSelfBlock t ||
      (match eb with | some b => hasBadSelfBlock b | none => false)
  | .whileStmt c b => hasBadSelfE c || hasBadSelfBlock b
  | .forIn _ it b => hasBadSelfE it || hasBadSelfBlock b
  | .ret (some e) => hasBadSelfE e
  | _ => false
termination_by s => 10 * sizeOf s + 5

/-- Block version of `hasBadSelfE`. -/
def hasBadSelfBlock : Block → Bool
  | .mk ss => hasBadSelfStmts ss
termination_by b => 10 * sizeOf b

/-- Statement-list version of `hasBadSelfE`. -/
def hasBadSelfStmts : List Statement → Bool
  | [] => false
  | s :: r => hasBadSelfStmt s || hasBadSelfStmts r
termination_by ss => 10 * sizeOf ss

end

/-- Item version of `hasBadSelfE`: the session-access rule applies to
the lowered bodies (workers and functions). -/
def hasBadSelfItem : Item → Bool
  | .worker w => hasBadSelfBlock w.body
  | .function f => hasBadSelfBlock f.body
  | _ => false

/-- Program version of `hasBadSelfE`. -/
def hasBadSelfProgram (p : Program) : Bool :=
  p.items.any hasBadSelfItem

/-- Modelled from the spec: the token alphabet needed to state the
precedence and statement-separation rules of §4.2.  The grammar itself
(patchwork.lalrpop, generated into OUT_DIR) and the lexer library are
not in the tree; only their tests are. -/
inductive Tok where
  | num (s : String)
  | ident (s : String)
  | kwTrue
  | kwFalse
  | kwReturn
  | plus
  | minus
  | star
  | slash
  | eqeq
  | neq
  | ltT
  | gtT
  | ampamp
  | pipepipe
  | assign
  | bang
  | lparen
  | rparen
  | newline
  | semi
deriving DecidableEq, Repr

/-- Binary operator recognized at a given precedence level, per the
table of §4.2: 1 logical-or, 2 logical-and, 3 equality, 4 relational,
5 additive, 6 multiplicative. -/
def tokBin (lvl : Nat) (t : Tok) : Option BinOp :=
  match lvl, t with
  | 1, .pipepipe => some .or
  | 2, .ampamp => some .and
  | 3, .eqeq => some .eq
  | 3, .neq => some .notEq
  | 4, .ltT => some .lt
  | 4, .gtT => some .gt
  | 5, .plus => some .add
  | 5, .minus => some .sub
  | 6, .star => some .mul
  | 6, .slash => some .div
  | _, _ => none

mutual

/-- Modelled from the spec: precedence-climbing expression parsing per
the table of §4.2 — level 0 assignment (right-associative), levels 1-6
the left-associative binary levels of `tokBin`, level 7 unary, level 8
primary (literals, identifiers, parenthesized expressions).  Fuel-indexed
so the recursion is structural. -/
def parseLevel : Nat → Nat → List Tok → Option (Expr × List Tok)
  | 0, _, _ => none
  | fuel + 1, lvl, ts =>
    if lvl = 0 then
      match parseLevel fuel 1 ts with
      | none => none
      | some (lhs, rest) =>
        match rest with
        | .assign :: rest2 =>
          (match parseLevel fuel 0 rest2 with
           | some (rhs, rest3) => some (.binary .assign lhs rhs, rest3)
           | none => none)
        | _ => some (lhs, rest)
    else if lvl ≤ 6 then
      match parseLevel fuel (lvl + 1) ts with
      | none => none
      | some (lhs, rest) => parseChain fuel lvl lhs rest
    else if lvl = 7 then
      match ts with
      | .bang :: rest =>
        (match parseLevel fuel 7 rest with
         | some (e, rest2) => some (.unary .not e, rest2)
         | none => none)
      | .minus :: rest =>
        (match parseLevel fuel 7 rest with
         | some (e, rest2) => some (.unary .neg e, rest2)
         | none => none)
      | _ => parseLevel fuel 8 ts
    else
      match ts with
      | .num s :: rest => some (.number s, rest)
      | .ident s :: rest => some (.identifier s, rest)
      | .kwTrue :: rest => some (.trueLit, rest)
      | .kwFalse :: rest => some (.falseLit, rest)
      | .lparen :: rest =>
        (match parseLevel fuel 0 rest with
         | some (e, .rparen :: rest2) => some (.paren e, rest2)
         | _ => none)
      | _ => none

/-- Left-associative operator chain at one binary level. -/
def parseChain : Nat → Nat → Expr → List Tok → Option (Expr × List Tok)
  | 0, _, _, _ => none
  | fuel + 1, lvl, acc, ts =>
    match ts with
    | t :: rest =>
      (match tokBin lvl t with
       | some op =>
         (match parseLevel fuel (lvl + 1) rest with
          | some (rhs, rest2) => parseChain fuel lvl (.binary op acc rhs) rest2
          | none => none)
       | none => some (acc, ts))
    | [] => some (acc, ts)

end

/-- Entry point of the modelled expression grammar, with fuel ample for
the token list. -/
def parse_expr (ts : List Tok) : Option (Expr × List Tok) :=
  parseLevel (4 * ts.length + 12) 0 ts

/-- Modelled from the spec: one statement of §4.2 — after `return`, a
newline, semicolon or end of input means a value-less return (no
implicit continuation across a bare newline); otherwise the return value
expression follows; anything else is an expression statement. -/
def parseStmt (fuel : Nat) (ts : List Tok) : Option (Statement × List Tok) :=
  match fuel with
  | 0 => none
  | f + 1 =>
    match ts with
    | .kwReturn :: rest =>
      (match rest with
       | [] => some (.ret none, [])
       | .newline :: _ => some (.ret none, rest)
       | .semi :: _ => some (.ret none, rest)
       | _ =>
         (match parseLevel f 0 rest with
          | some (e, rest2) => some (.ret (some e), rest2)
          | none => none))
    | _ =>
      (match parseLevel f 0 ts with
       | some (e, rest) => some (.expr e, rest)
       | none => none)

/-- Modelled from the spec: statement sequencing of §4.2 — statements
are terminated by newline or semicolon (or end of input), with blank
separators skipped. -/
def parseStmts (fuel : Nat) (ts : List Tok) : Option (List Statement) :=
  match fuel with
  | 0 => none
  | f + 1 =>
    match ts with
    | [] => some []
    | .newline :: rest => parseStmts f rest
    | .semi :: rest => parseStmts f rest
    | _ =>
      match parseStmt f ts with
      | some (s, []) => some [s]
      | some (s, .newline :: r2) =>
        (match parseStmts f r2 with
         | some xs => some (s :: xs)
         | none => none)
      | some (s, .semi :: r2) =>
        (match parseStmts f r2 with
         | some xs => some (s :: xs)
         | none => none)
      | _ => none

/-- Entry point of the modelled statement grammar. -/
def parse_statements (ts : List Tok) : Option (List Statement) :=
  parseStmts (4 * ts.length + 12) ts

/-- Buffer-extension relation: the second state's output extends the
first state's output on the right. -/
def Ext (g g2 : CodeGenerator) : Prop :=
  ∃ t, g2.output = g.output ++ t

theorem str_append_assoc (a b c : String) : a ++ b ++ c = a ++ (b ++ c) :=
  String.append_assoc a b c

theorem str_append_nil (a : String) : a ++ "" = a :=
  String.append_empty a

theorem push_output (g : CodeGenerator) (s : String) : (g.push s).output = g.output ++ s := rfl

theorem push_push (g : CodeGenerator) (a b : String) : (g.push a).push b = g.push (a ++ b) := by
  simp [CodeGenerator.push, str_append_assoc]

theorem ext_refl (g : CodeGenerator) : Ext g g :=
  ⟨"", (str_append_nil g.output).symm⟩

theorem ext_trans {g1 g2 g3 : CodeGenerator} (h1 : Ext g1 g2) (h2 : Ext g2 g3) : Ext g1 g3 := by
  obtain ⟨t1, e1⟩ := h1
  obtain ⟨t2, e2⟩ := h2
  exact ⟨t1 ++ t2, by rw [e2, e1, str_append_assoc]⟩

theorem ext_push (g : CodeGenerator) (s : String) : Ext g (g.push s) :=
  ⟨s, rfl⟩

theorem ext_after_push {g : CodeGenerator} {s : String} {g2 : CodeGenerator}
    (h : Ext (g.push s) g2) : Ext g g2 :=
  ext_trans (ext_push g s) h

theorem ext_inc (g : CodeGenerator) : Ext g g.incIndent :=
  ⟨"", (str_append_nil g.output).symm⟩

theorem ext_dec (g : CodeGenerator) : Ext g g.decIndent :=
  ⟨"", (str_append_nil g.output).symm⟩

theorem ext_write_indent (g : CodeGenerator) : Ext g (write_indent g) :=
  ext_push g (indentStr g.indent)

@[simp] theorem st_ok (g : CodeGenerator) : (GenRes.ok g).st = g := rfl

@[simp] theorem st_err (e : CompileError) (g : CodeGenerator) : (GenRes.err e g).st = g := rfl

@[simp] theorem andThen_ok (g : CodeGenerator) (k : CodeGenerator → GenRes) :
    (GenRes.ok g).andThen k = k g := rfl

@[simp] theorem andThen_err (e : CompileError) (g : CodeGenerator) (k : CodeGenerator → GenRes) :
    (GenRes.err e g).andThen k = .err e g := rfl

theorem st_andThen_ext {g : CodeGenerator} {r : GenRes} {k : CodeGenerator → GenRes}
    (h1 : Ext g r.st) (h2 : ∀ gm, Ext gm (k gm).st) : Ext g ((r.andThen k).st) := by
  cases r with
  | ok gm => exact ext_trans h1 (h2 gm)
  | err e gm => exact h1

theorem andThen_eq_ok {r : GenRes} {k : CodeGenerator → GenRes} {gf : CodeGenerator}
    (h : r.andThen k = .ok gf) : ∃ gm, r = .ok gm ∧ k gm = .ok gf := by
  cases r with
  | ok gm => exact ⟨gm, rfl, h⟩
  | err e gm => simp [GenRes.andThen] at h

mutual

theorem mono_block (g : CodeGenerator) (b : Block) : Ext g (generate_block g b).st := by
  cases b with
  | mk ss =>
    simp only [generate_block]
    exact mono_stmts g ss
termination_by 10 * sizeOf b

theorem mono_stmts (g : CodeGenerator) (ss : List Statement) : Ext g (generate_stmts g ss).st := by
  cases ss with
  | nil =>
    simp only [generate_stmts]
    exact ext_refl g
  | cons s rest =>
    simp only [generate_stmts]
    refine st_andThen_ext ?_ ?_
    · exact ext_trans (ext_write_indent g) (mono_statement (write_indent g) s)
    · intro gm
      exact ext_after_push (mono_stmts (gm.push "\n") rest)
termination_by 10 * sizeOf ss

theorem mono_statement (g : CodeGenerator) (s : Statement) : Ext g (generate_statement g s).st := by
  cases s with
  | varDecl p init =>
    simp only [generate_statement]
    exact mono_var_decl g p init
  | expr e =>
    simp only [generate_statement]
    exact st_andThen_ext (mono_expr g e) (fun gm => ext_push gm ";")
  | ifStmt c t eb =>
    simp only [generate_statement]
    exact mono_if g c t eb
  | whileStmt c b =>
    simp only [generate_statement]
    exact mono_while g c b
  | forIn v it b =>
    simp only [generate_statement]
    exact mono_for_in g v it b
  | ret oe =>
    cases oe with
    | some e =>
      simp only [generate_statement]
      refine st_andThen_ext ?_ (fun gm => ext_push gm ";")
      exact ext_after_push (mono_expr (g.push "return ") e)
    | none =>
      simp only [generate_statement]
      exact ext_push g "return;"
  | breakStmt =>
    simp only [generate_statement]
    exact ext_push g "break;"
  | succeed =>
    simp only [generate_statement]
    exact ext_push g "// succeed statement (not yet implemented)"
  | typeDecl =>
    simp only [generate_statement]
    exact ext_refl g
termination_by 10 * sizeOf s

theorem mono_var_decl (g : CodeGenerator) (p : Pattern) (init : Option Expr) :
    Ext g (generate_var_decl g p init).st := by
  cases p with
  | identifier name =>
    cases init with
    | some e =>
      simp only [generate_var_decl]
      refine st_andThen_ext ?_ (fun gm => ext_push gm ";")
      exact ext_after_push (mono_expr _ e)
    | none =>
      simp only [generate_var_decl]
      exact ext_push g _
  | ignore =>
    cases init with
    | some e =>
      simp only [generate_var_decl]
      exact st_andThen_ext (mono_expr g e) (fun gm => ext_push gm ";")
    | none =>
      simp only [generate_var_decl]
      exact ext_refl g
  | object fields =>
    simp only [generate_var_decl]
    exact ext_refl g
  | array items =>
    simp only [generate_var_decl]
    exact ext_refl g
termination_by 10 * sizeOf init + 1

theorem mono_if (g : CodeGenerator) (c : Expr) (t : Block) (eb : Option Block) :
    Ext g (generate_if g c t eb).st := by
  simp only [generate_if]
  refine st_andThen_ext (ext_after_push (mono_expr _ c)) ?_
  intro g1
  refine st_andThen_ext ?_ ?_
  · exact ext_trans (ext_after_push (ext_inc _)) (mono_block _ t)
  · intro g2
    cases eb with
    | none => exact ext_trans (ext_dec g2) (ext_trans (ext_write_indent _) (ext_push _ _))
    | some blk =>
      refine st_andThen_ext ?_ ?_
      · refine ext_trans (ext_dec g2) ?_
        refine ext_trans (ext_write_indent _) ?_
        refine ext_trans (ext_push _ "\x7d") ?_
        exact ext_trans (ext_after_push (ext_inc _)) (mono_block _ blk)
      · intro g4
        exact ext_trans (ext_dec g4) (ext_trans (ext_write_indent _) (ext_push _ _))
termination_by 10 * (sizeOf c + sizeOf t + sizeOf eb) + 1

theorem mono_while (g : CodeGenerator) (c : Expr) (b : Block) :
    Ext g (generate_while g c b).st := by
  simp only [generate_while]
  refine st_andThen_ext (ext_after_push (mono_expr _ c)) ?_
  intro g1
  refine st_andThen_ext ?_ ?_
  · exact ext_trans (ext_after_push (ext_inc _)) (mono_block _ b)
  · intro g2
    exact ext_trans (ext_dec g2) (ext_trans (ext_write_indent _) (ext_push _ _))
termination_by 10 * (sizeOf c + sizeOf b) + 1

theorem mono_for_in (g : CodeGenerator) (v : String) (it : Expr) (b : Block) :
    Ext g (generate_for_in g v it b).st := by
  simp only [generate_for_in]
  refine st_andThen_ext (ext_after_push (mono_expr _ it)) ?_
  intro g1
  refine st_andThen_ext ?_ ?_
  · exact ext_trans (ext_after_push (ext_inc _)) (mono_block _ b)
  · intro g2
    exact ext_trans (ext_dec g2) (ext_trans (ext_write_indent _) (ext_push _ _))
termination_by 10 * (sizeOf it + sizeOf b) + 1

theorem mono_expr (g : CodeGenerator) (e : Expr) : Ext g (generate_expr g e).st := by
  cases e with
  | identifier name =>
    simp only [generate_expr]
    exact ext_push g name
  | number n =>
    simp only [generate_expr]
    exact ext_push g n
  | string parts =>
    simp only [generate_expr]
    exact mono_string_literal g parts
  | trueLit =>
    simp only [generate_expr]
    exact ext_push g "true"
  | falseLit =>
    simp only [generate_expr]
    exact ext_push g "false"
  | array items =>
    simp only [generate_expr]
    exact st_andThen_ext (ext_after_push (mono_expr_list _ items true))
      (fun gm => ext_push gm "]")
  | object fields =>
    simp only [generate_expr]
    exact st_andThen_ext (ext_after_push (mono_obj_fields _ fields true))
      (fun gm => ext_push gm " \x7d")
  | binary op l r =>
    simp only [generate_expr]
    exact mono_binary_op g op l r
  | unary op o =>
    simp only [generate_expr]
    exact mono_unary_op g op o
  | call callee args =>
    simp only [generate_expr]
    refine st_andThen_ext (mono_expr g callee) ?_
    intro g1
    exact st_andThen_ext (ext_after_push (mono_expr_list _ args true))
      (fun gm => ext_push gm ")")
  | member o f =>
    simp only [generate_expr]
    exact st_andThen_ext (mono_expr g o) (fun gm => ext_push gm _)
  | index o i =>
    simp only [generate_expr]
    refine st_andThen_ext (mono_expr g o) ?_
    intro g1
    exact st_andThen_ext (ext_after_push (mono_expr _ i)) (fun gm => ext_push gm "]")
  | paren inner =>
    simp only [generate_expr]
    exact st_andThen_ext (ext_after_push (mono_expr _ inner)) (fun gm => ext_push gm ")")
  | postIncrement o =>
    simp only [generate_expr]
    exact st_andThen_ext (mono_expr g o) (fun gm => ext_push gm "++")
  | postDecrement o =>
    simp only [generate_expr]
    exact st_andThen_ext (mono_expr g o) (fun gm => ext_push gm _)
  | await inner =>
    simp only [generate_expr]
    exact ext_after_push (mono_expr _ inner)
  | bareCommand name args =>
    simp only [generate_expr]
    exact mono_shell_command g name args
  | commandSubst cmd =>
    simp only [generate_expr]
    exact mono_command_subst g cmd
  | shellPipe l r =>
    simp only [generate_expr]
    exact mono_shell_chain g _ l r
  | shellAnd l r =>
    simp only [generate_expr]
    exact mono_shell_chain g _ l r
  | shellOr l r =>
    simp only [generate_expr]
    exact mono_shell_chain g _ l r
  | shellRedirect c op t =>
    simp only [generate_expr]
    exact mono_shell_redirect g c op t
  | think pb =>
    simp only [generate_expr]
    exact ext_refl g
  | ask pb =>
    simp only [generate_expr]
    exact ext_refl g
  | doExpr b =>
    simp only [generate_expr]
    exact ext_refl g
termination_by 10 * sizeOf e

theorem mono_expr_list (g : CodeGenerator) (es : List Expr) (first : Bool) :
    Ext g (generate_expr_list g es first).st := by
  cases es with
  | nil =>
    simp only [generate_expr_list]
    exact ext_refl g
  | cons e rest =>
    simp only [generate_expr_list]
    refine st_andThen_ext ?_ (fun gm => mono_expr_list gm rest false)
    cases first with
    | true => simpa using mono_expr g e
    | false => simpa using ext_after_push (mono_expr (g.push ", ") e)
termination_by 10 * sizeOf es

theorem mono_obj_fields (g : CodeGenerator) (fs : List ObjField) (first : Bool) :
    Ext g (generate_obj_fields g fs first).st := by
  cases fs with
  | nil =>
    simp only [generate_obj_fields]
    exact ext_refl g
  | cons f rest =>
    cases f with
    | mk key val =>
      cases val with
      | some v =>
        simp only [generate_obj_fields]
        refine st_andThen_ext ?_ (fun gm => mono_obj_fields gm rest false)
        cases first with
        | true => simpa using ext_after_push (ext_after_push (mono_expr _ v))
        | false =>
          simpa using ext_after_push (ext_after_push (ext_after_push (mono_expr _ v)))
      | none =>
        simp only [generate_obj_fields]
        cases first with
        | true => simpa using ext_after_push (mono_obj_fields _ rest false)
        | false => simpa using ext_after_push (ext_after_push (mono_obj_fields _ rest false))
termination_by 10 * sizeOf fs

theorem mono_string_literal (g : CodeGenerator) (parts : List StringPart) :
    Ext g (generate_string_literal g parts).st := by
  unfold generate_string_literal
  split
  · exact ext_push g _
  · exact st_andThen_ext (ext_after_push (mono_template_parts _ parts)) (fun gm => ext_push gm "`")
termination_by 10 * sizeOf parts + 1

theorem mono_template_parts (g : CodeGenerator) (parts : List StringPart) :
    Ext g (generate_template_parts g parts).st := by
  cases parts with
  | nil =>
    simp only [generate_template_parts]
    exact ext_refl g
  | cons p rest =>
    cases p with
    | text t =>
      simp only [generate_template_parts]
      exact ext_after_push (mono_template_parts _ rest)
    | interpolation e =>
      simp only [generate_template_parts]
      refine st_andThen_ext (ext_after_push (mono_expr _ e)) ?_
      intro gm
      exact ext_after_push (mono_template_parts _ rest)
termination_by 10 * sizeOf parts

theorem mono_binary_op (g : CodeGenerator) (op : BinOp) (l r : Expr) :
    Ext g (generate_binary_op g op l r).st := by
  simp only [generate_binary_op]
  refine st_andThen_ext (mono_expr g l) ?_
  intro g1
  cases op
  all_goals first
    | exact ext_refl g1
    | exact ext_after_push (mono_expr _ r)
termination_by 10 * (sizeOf l + sizeOf r) + 1

theorem mono_unary_op (g : CodeGenerator) (op : UnOp) (o : Expr) :
    Ext g (generate_unary_op g op o).st := by
  cases op with
  | not =>
    simp only [generate_unary_op]
    exact ext_after_push (mono_expr _ o)
  | neg =>
    simp only [generate_unary_op]
    exact ext_after_push (mono_expr _ o)
  | throw =>
    simp only [generate_unary_op]
    exact st_andThen_ext (ext_after_push (mono_expr _ o)) (fun gm => ext_push gm "))")
termination_by 10 * sizeOf o + 1

theorem mono_shell_command (g : CodeGenerator) (name : String) (args : List CommandArg) :
    Ext g (generate_shell_command g name args).st := by
  simp only [generate_shell_command]
  exact st_andThen_ext (ext_after_push (mono_command_template _ name args))
    (fun gm => ext_push gm ")")
termination_by 10 * sizeOf args + 3

theorem mono_command_template (g : CodeGenerator) (name : String) (args : List CommandArg) :
    Ext g (generate_command_template g name args).st := by
  simp only [generate_command_template]
  exact st_andThen_ext (ext_after_push (mono_command_args _ args)) (fun gm => ext_push gm "`")
termination_by 10 * sizeOf args + 2

theorem mono_command_args (g : CodeGenerator) (args : List CommandArg) :
    Ext g (generate_command_args g args).st := by
  cases args with
  | nil =>
    simp only [generate_command_args]
    exact ext_refl g
  | cons a rest =>
    cases a with
    | literal lit =>
      simp only [generate_command_args]
      exact ext_after_push (mono_command_args _ rest)
    | string parts =>
      simp only [generate_command_args]
      refine st_andThen_ext (ext_after_push (mono_template_parts _ parts)) ?_
      intro gm
      exact mono_command_args gm rest
termination_by 10 * sizeOf args + 1

theorem mono_command_subst (g : CodeGenerator) (cmd : Expr) :
    Ext g (generate_command_subst g cmd).st := by
  unfold generate_command_subst
  refine st_andThen_ext ?_ (fun gm => ext_push gm _)
  split
  · exact ext_after_push (mono_command_template _ _ _)
  · exact ext_after_push (mono_expr _ _)
termination_by 10 * sizeOf cmd + 5

theorem mono_shell_chain (g : CodeGenerator) (opening : String) (l r : Expr) :
    Ext g (generate_shell_chain g opening l r).st := by
  simp only [generate_shell_chain]
  refine st_andThen_ext (ext_after_push (mono_for_pipe _ l)) ?_
  intro g1
  exact st_andThen_ext (ext_after_push (mono_for_pipe _ r)) (fun gm => ext_push gm "])")
termination_by 10 * (sizeOf l + sizeOf r) + 5

theorem mono_shell_redirect (g : CodeGenerator) (c : Expr) (op : RedirectOp) (t : Expr) :
    Ext g (generate_shell_redirect g c op t).st := by
  unfold generate_shell_redirect
  refine st_andThen_ext (ext_after_push (mono_for_pipe _ c)) ?_
  intro g1
  exact st_andThen_ext (ext_after_push (mono_expr _ t)) (fun gm => ext_push gm ")")
termination_by 10 * (sizeOf c + sizeOf t) + 5

theorem mono_for_pipe (g : CodeGenerator) (e : Expr) :
    Ext g (generate_shell_expr_for_pipe g e).st := by
  unfold generate_shell_expr_for_pipe
  split
  · exact mono_command_template _ _ _
  · exact mono_expr _ _
termination_by 10 * sizeOf e + 4

end

theorem mono_params (g : CodeGenerator) (ps : List Param) :
    Ext g (generate_params g ps).st := by
  suffices h : ∀ (first : Bool) (g2 : CodeGenerator), Ext g2 (params_loop g2 ps first) by
    exact ext_trans (ext_after_push (h true (g.push "("))) (ext_push _ ")")
  clear g
  induction ps with
  | nil => intro first g2; exact ext_refl g2
  | cons p rest ih =>
    intro first g2
    cases first with
    | true => simpa [params_loop] using ext_after_push (ih false _)
    | false => simpa [params_loop] using ext_after_push (ext_after_push (ih false _))

theorem mono_worker (g : CodeGenerator) (w : WorkerDecl) :
    Ext g (generate_worker g w).st := by
  simp only [generate_worker]
  refine st_andThen_ext (ext_after_push (mono_params _ w.params)) ?_
  intro g1
  refine st_andThen_ext ?_ ?_
  · exact ext_trans (ext_after_push (ext_inc _)) (mono_block _ w.body)
  · intro g2
    exact ext_trans (ext_dec g2) (ext_push _ _)

theorem mono_function (g : CodeGenerator) (f : FunctionDecl) :
    Ext g (generate_function g f).st := by
  simp only [generate_function]
  refine st_andThen_ext (ext_after_push (mono_params _ f.params)) ?_
  intro g1
  refine st_andThen_ext ?_ ?_
  · exact ext_trans (ext_after_push (ext_inc _)) (mono_block _ f.body)
  · intro g2
    exact ext_trans (ext_dec g2) (ext_push _ _)

theorem mono_items (g : CodeGenerator) (items : List Item) :
    Ext g (generate_items g items).st := by
  induction items generalizing g with
  | nil => exact ext_refl g
  | cons it rest ih =>
    cases it with
    | worker w =>
      simp only [generate_items]
      exact st_andThen_ext (mono_worker g w) (fun gm => ext_after_push (ih _))
    | function f =>
      simp only [generate_items]
      exact st_andThen_ext (mono_function g f) (fun gm => ext_after_push (ih _))
    | importItem => simpa [generate_items] using ih g
    | skill => simpa [generate_items] using ih g
    | traitItem => simpa [generate_items] using ih g
    | typeItem => simpa [generate_items] using ih g

mutual

theorem okbad_block (g : CodeGenerator) (b : Block) (gf : CodeGenerator)
    (h : generate_block g b = .ok gf) : hasUBlock b = false := by
  cases b with
  | mk ss =>
    simp only [generate_block] at h
    simp only [hasUBlock]
    exact okbad_stmts g ss gf h
termination_by 10 * sizeOf b
decreasing_by
  all_goals subst_vars
  all_goals simp_wf
  all_goals try omega

theorem okbad_stmts (g : CodeGenerator) (ss : List Statement) (gf : CodeGenerator)
    (h : generate_stmts g ss = .ok gf) : hasUStmts ss = false := by
  cases ss with
  | nil => simp [hasUStmts]
  | cons s rest =>
    simp only [generate_stmts] at h
    obtain ⟨gm, h1, h2⟩ := andThen_eq_ok h
    have hs := okbad_statement _ s _ h1
    have hr := okbad_stmts _ rest _ h2
    simp [hasUStmts, hs, hr]
termination_by 10 * sizeOf ss
decreasing_by
  all_goals subst_vars
  all_goals simp_wf
  all_goals try omega

theorem okbad_statement (g : CodeGenerator) (s : Statement) (gf : CodeGenerator)
    (h : generate_statement g s = .ok gf) : hasUStmt s = false := by
  cases s with
  | varDecl p init =>
    simp only [generate_statement] at h
    exact okbad_var_decl g p init gf h
  | expr e =>
    simp only [generate_statement] at h
    obtain ⟨gm, h1, _⟩ := andThen_eq_ok h
    have he := okbad_expr _ e _ h1
    simp [hasUStmt, he]
  | ifStmt c t eb =>
    simp only [generate_statement] at h
    exact okbad_if g c t eb gf h
  | whileStmt c b =>
    simp only [generate_statement] at h
    exact okbad_while g c b gf h
  | forIn v it b =>
    simp only [generate_statement] at h
    exact okbad_for_in g v it b gf h
  | ret oe =>
    cases oe with
    | some e =>
      simp only [generate_statement] at h
      obtain ⟨gm, h1, _⟩ := andThen_eq_ok h
      have he := okbad_expr _ e _ h1
      simp [hasUStmt, he]
    | none => simp [hasUStmt]
  | breakStmt => simp [hasUStmt]
  | succeed => simp [hasUStmt]
  | typeDecl => simp [hasUStmt]
termination_by 10 * sizeOf s
decreasing_by
  all_goals subst_vars
  all_goals simp_wf
  all_goals try omega

theorem okbad_var_decl (g : CodeGenerator) (p : Pattern) (init : Option Expr) (gf : CodeGenerator)
    (h : generate_var_decl g p init = .ok gf) : hasUStmt (.varDecl p init) = false := by
  cases p with
  | identifier name =>
    cases init with
    | some e =>
      simp only [generate_var_decl] at h
      obtain ⟨gm, h1, _⟩ := andThen_eq_ok h
      have he := okbad_expr _ e _ h1
      simp [hasUStmt, he]
    | none => simp [hasUStmt]
  | ignore =>
    cases init with
    | some e =>
      simp only [generate_var_decl] at h
      obtain ⟨gm, h1, _⟩ := andThen_eq_ok h
      have he := okbad_expr _ e _ h1
      simp [hasUStmt, he]
    | none => simp [hasUStmt]
  | object fields =>
    simp only [generate_var_decl] at h
    exact absurd h (by simp)
  | array items =>
    simp only [generate_var_decl] at h
    exact absurd h (by simp)
termination_by 10 * sizeOf init + 1
decreasing_by
  all_goals subst_vars
  all_goals simp_wf
  all_goals try omega

theorem okbad_if (g : CodeGenerator) (c : Expr) (t : Block) (eb : Option Block) (gf : CodeGenerator)
    (h : generate_if g c t eb = .ok gf) : hasUStmt (.ifStmt c t eb) = false := by
  simp only [generate_if] at h
  obtain ⟨g1, h1, h2⟩ := andThen_eq_ok h
  obtain ⟨g2, h3, h4⟩ := andThen_eq_ok h2
  have hc := okbad_expr _ c _ h1
  have ht := okbad_block _ t _ h3
  cases eb with
  | none => simp [hasUStmt, hc, ht]
  | some blk =>
    obtain ⟨g4, h5, _⟩ := andThen_eq_ok h4
    have hb := okbad_block _ blk _ h5
    simp [hasUStmt, hc, ht, hb]
termination_by 10 * (sizeOf c + sizeOf t + sizeOf eb) + 1
decreasing_by
  all_goals subst_vars
  all_goals simp_wf
  all_goals try omega

theorem okbad_while (g : CodeGenerator) (c : Expr) (b : Block) (gf : CodeGenerator)
    (h : generate_while g c b = .ok gf) : hasUStmt (.whileStmt c b) = false := by
  simp only [generate_while] at h
  obtain ⟨g1, h1, h2⟩ := andThen_eq_ok h
  obtain ⟨g2, h3, _⟩ := andThen_eq_ok h2
  have hc := okbad_expr _ c _ h1
  have hb := okbad_block _ b _ h3
  simp [hasUStmt, hc, hb]
termination_by 10 * (sizeOf c + sizeOf b) + 1
decreasing_by
  all_goals subst_vars
  all_goals simp_wf
  all_goals try omega

theorem okbad_for_in (g : CodeGenerator) (v : String) (it : Expr) (b : Block) (gf : CodeGenerator)
    (h : generate_for_in g v it b = .ok gf) : hasUStmt (.forIn v it b) = false := by
  simp only [generate_for_in] at h
  obtain ⟨g1, h1, h2⟩ := andThen_eq_ok h
  obtain ⟨g2, h3, _⟩ := andThen_eq_ok h2
  have hi := okbad_expr _ it _ h1
  have hb := okbad_block _ b _ h3
  simp [hasUStmt, hi, hb]
termination_by 10 * (sizeOf it + sizeOf b) + 1
decreasing_by
  all_goals subst_vars
  all_goals simp_wf
  all_goals try omega

theorem okbad_expr (g : CodeGenerator) (e : Expr) (gf : CodeGenerator)
    (h : generate_expr g e = .ok gf) : hasUE e = false := by
  cases e with
  | identifier name => simp [hasUE]
  | number n => simp [hasUE]
  | string parts =>
    simp only [generate_expr] at h
    have hp := okbad_string_literal _ parts _ h
    simp [hasUE, hp]
  | trueLit => simp [hasUE]
  | falseLit => simp [hasUE]
  | array items =>
    simp only [generate_expr] at h
    obtain ⟨gm, h1, _⟩ := andThen_eq_ok h
    have hi := okbad_expr_list _ items true _ h1
    simp [hasUE, hi]
  | object fields =>
    simp only [generate_expr] at h
    obtain ⟨gm, h1, _⟩ := andThen_eq_ok h
    have hf := okbad_obj_fields _ fields true _ h1
    simp [hasUE, hf]
  | binary op l r =>
    simp only [generate_expr] at h
    simp only [generate_binary_op] at h
    obtain ⟨g1, h1, hk⟩ := andThen_eq_ok h
    have hL := okbad_expr _ l _ h1
    cases op
    all_goals first
      | exact GenRes.noConfusion hk
      | (have hR := okbad_expr _ r _ hk; simp [hasUE, hL, hR])
  | unary op o =>
    simp only [generate_expr] at h
    cases op with
    | not =>
      simp only [generate_unary_op] at h
      have ho := okbad_expr _ o _ h
      simp [hasUE, ho]
    | neg =>
      simp only [generate_unary_op] at h
      have ho := okbad_expr _ o _ h
      simp [hasUE, ho]
    | throw =>
      simp only [generate_unary_op] at h
      obtain ⟨gm, h1, _⟩ := andThen_eq_ok h
      have ho := okbad_expr _ o _ h1
      simp [hasUE, ho]
  | call callee args =>
    simp only [generate_expr] at h
    obtain ⟨g1, h1, h2⟩ := andThen_eq_ok h
    obtain ⟨g2, h3, _⟩ := andThen_eq_ok h2
    have hc := okbad_expr _ callee _ h1
    have ha := okbad_expr_list _ args true _ h3
    simp [hasUE, hc, ha]
  | member o f =>
    simp only [generate_expr] at h
    obtain ⟨gm, h1, _⟩ := andThen_eq_ok h
    have ho := okbad_expr _ o _ h1
    simp [hasUE, ho]
  | index o i =>
    simp only [generate_expr] at h
    obtain ⟨g1, h1, h2⟩ := andThen_eq_ok h
    obtain ⟨g2, h3, _⟩ := andThen_eq_ok h2
    have ho := okbad_expr _ o _ h1
    have hi := okbad_expr _ i _ h3
    simp [hasUE, ho, hi]
  | paren inner =>
    simp only [generate_expr] at h
    obtain ⟨gm, h1, _⟩ := andThen_eq_ok h
    have ho := okbad_expr _ inner _ h1
    simp [hasUE, ho]
  | postIncrement o =>
    simp only [generate_expr] at h
    obtain ⟨gm, h1, _⟩ := andThen_eq_ok h
    have ho := okbad_expr _ o _ h1
    simp [hasUE, ho]
  | postDecrement o =>
    simp only [generate_expr] at h
    obtain ⟨gm, h1, _⟩ := andThen_eq_ok h
    have ho := okbad_expr _ o _ h1
    simp [hasUE, ho]
  | await inner =>
    simp only [generate_expr] at h
    have ho := okbad_expr _ inner _ h
    simp [hasUE, ho]
  | bareCommand name args =>
    simp only [generate_expr] at h
    simp only [generate_shell_command] at h
    obtain ⟨gm, h1, _⟩ := andThen_eq_ok h
    have ha := okbad_command_template _ name args _ h1
    simp [hasUE, ha]
  | commandSubst cmd =>
    simp only [generate_expr] at h
    have hc := okbad_command_subst _ cmd _ h
    simp [hasUE, hc]
  | shellPipe l r =>
    simp only [generate_expr] at h
    obtain ⟨hL, hR⟩ := okbad_shell_chain _ _ l r _ h
    simp [hasUE, hL, hR]
  | shellAnd l r =>
    simp only [generate_expr] at h
    obtain ⟨hL, hR⟩ := okbad_shell_chain _ _ l r _ h
    simp [hasUE, hL, hR]
  | shellOr l r =>
    simp only [generate_expr] at h
    obtain ⟨hL, hR⟩ := okbad_shell_chain _ _ l r _ h
    simp [hasUE, hL, hR]
  | shellRedirect c op t =>
    simp only [generate_expr] at h
    unfold generate_shell_redirect at h
    obtain ⟨g1, h1, h2⟩ := andThen_eq_ok h
    obtain ⟨g2, h3, _⟩ := andThen_eq_ok h2
    have hc := okbad_for_pipe _ c _ h1
    have ht := okbad_expr _ t _ h3
    simp [hasUE, hc, ht]
  | think pb =>
    simp only [generate_expr] at h
    exact GenRes.noConfusion h
  | ask pb =>
    simp only [generate_expr] at h
    exact GenRes.noConfusion h
  | doExpr b =>
    simp only [generate_expr] at h
    exact GenRes.noConfusion h
termination_by 10 * sizeOf e
decreasing_by
  all_goals subst_vars
  all_goals simp_wf
  all_goals try omega

theorem okbad_expr_list (g : CodeGenerator) (es : List Expr) (first : Bool) (gf : CodeGenerator)
    (h : generate_expr_list g es first = .ok gf) : hasUList es = false := by
  cases es with
  | nil => simp [hasUList]
  | cons e rest =>
    simp only [generate_expr_list] at h
    obtain ⟨gm, h1, h2⟩ := andThen_eq_ok h
    have he := okbad_expr _ e _ h1
    have hr := okbad_expr_list _ rest false _ h2
    simp [hasUList, he, hr]
termination_by 10 * sizeOf es
decreasing_by
  all_goals subst_vars
  all_goals simp_wf
  all_goals try omega

theorem okbad_obj_fields (g : CodeGenerator) (fs : List ObjField) (first : Bool) (gf : CodeGenerator)
    (h : generate_obj_fields g fs first = .ok gf) : hasUFields fs = false := by
  cases fs with
  | nil => simp [hasUFields]
  | cons f rest =>
    cases f with
    | mk key val =>
      cases val with
      | some v =>
        simp only [generate_obj_fields] at h
        obtain ⟨gm, h1, h2⟩ := andThen_eq_ok h
        have hv := okbad_expr _ v _ h1
        have hr := okbad_obj_fields _ rest false _ h2
        simp [hasUFields, hv, hr]
      | none =>
        simp only [generate_obj_fields] at h
        have hr := okbad_obj_fields _ rest false _ h
        simp [hasUFields, hr]
termination_by 10 * sizeOf fs
decreasing_by
  all_goals subst_vars
  all_goals simp_wf
  all_goals try omega

theorem okbad_string_literal (g : CodeGenerator) (parts : List StringPart) (gf : CodeGenerator)
    (h : generate_string_literal g parts = .ok gf) : hasUParts parts = false := by
  unfold generate_string_literal at h
  split at h
  · simp [hasUParts]
  · obtain ⟨gm, h1, _⟩ := andThen_eq_ok h
    exact okbad_template_parts _ parts _ h1
termination_by 10 * sizeOf parts + 1
decreasing_by
  all_goals subst_vars
  all_goals simp_wf
  all_goals try omega

theorem okbad_template_parts (g : CodeGenerator) (parts : List StringPart) (gf : CodeGenerator)
    (h : generate_template_parts g parts = .ok gf) : hasUParts parts = false := by
  cases parts with
  | nil => simp [hasUParts]
  | cons p rest =>
    cases p with
    | text t =>
      simp only [generate_template_parts] at h
      have hr := okbad_template_parts _ rest _ h
      simp [hasUParts, hr]
    | interpolation e =>
      simp only [generate_template_parts] at h
      obtain ⟨gm, h1, h2⟩ := andThen_eq_ok h
      have he := okbad_expr _ e _ h1
      have hr := okbad_template_parts _ rest _ h2
      simp [hasUParts, he, hr]
termination_by 10 * sizeOf parts
decreasing_by
  all_goals subst_vars
  all_goals simp_wf
  all_goals try omega

theorem okbad_command_template (g : CodeGenerator) (name : String) (args : List CommandArg)
    (gf : CodeGenerator) (h : generate_command_template g name args = .ok gf) :
    hasUArgs args = false := by
  simp only [generate_command_template] at h
  obtain ⟨gm, h1, _⟩ := andThen_eq_ok h
  exact okbad_command_args _ args _ h1
termination_by 10 * sizeOf args + 2
decreasing_by
  all_goals subst_vars
  all_goals simp_wf
  all_goals try omega

theorem okbad_command_args (g : CodeGenerator) (args : List CommandArg) (gf : CodeGenerator)
    (h : generate_command_args g args = .ok gf) : hasUArgs args = false := by
  cases args with
  | nil => simp [hasUArgs]
  | cons a rest =>
    cases a with
    | literal lit =>
      simp only [generate_command_args] at h
      have hr := okbad_command_args _ rest _ h
      simp [hasUArgs, hr]
    | string parts =>
      simp only [generate_command_args] at h
      obtain ⟨gm, h1, h2⟩ := andThen_eq_ok h
      have hp := okbad_template_parts _ parts _ h1
      have hr := okbad_command_args _ rest _ h2
      simp [hasUArgs, hp, hr]
termination_by 10 * sizeOf args + 1
decreasing_by
  all_goals subst_vars
  all_goals simp_wf
  all_goals try omega

theorem okbad_command_subst (g : CodeGenerator) (cmd : Expr) (gf : CodeGenerator)
    (h : generate_command_subst g cmd = .ok gf) : hasUE cmd = false := by
  unfold generate_command_subst at h
  obtain ⟨gm, h1, _⟩ := andThen_eq_ok h
  split at h1
  · have ha := okbad_command_template _ _ _ _ h1
    simp [hasUE, ha]
  · exact okbad_expr _ _ _ h1
termination_by 10 * sizeOf cmd + 5
decreasing_by
  all_goals subst_vars
  all_goals simp_wf
  all_goals try omega

theorem okbad_shell_chain (g : CodeGenerator) (opening : String) (l r : Expr) (gf : CodeGenerator)
    (h : generate_shell_chain g opening l r = .ok gf) :
    hasUE l = false ∧ hasUE r = false := by
  simp only [generate_shell_chain] at h
  obtain ⟨g1, h1, h2⟩ := andThen_eq_ok h
  obtain ⟨g2, h3, _⟩ := andThen_eq_ok h2
  exact ⟨okbad_for_pipe _ l _ h1, okbad_for_pipe _ r _ h3⟩
termination_by 10 * (sizeOf l + sizeOf r) + 5
decreasing_by
  all_goals subst_vars
  all_goals simp_wf
  all_goals try omega

theorem okbad_for_pipe (g : CodeGenerator) (e : Expr) (gf : CodeGenerator)
    (h : generate_shell_expr_for_pipe g e = .ok gf) : hasUE e = false := by
  unfold generate_shell_expr_for_pipe at h
  split at h
  · have ha := okbad_command_template _ _ _ _ h
    simp [hasUE, ha]
  · exact okbad_expr _ _ _ h
termination_by 10 * sizeOf e + 4
decreasing_by
  all_goals subst_vars
  all_goals simp_wf
  all_goals try omega

end

theorem okbad_worker (g : CodeGenerator) (w : WorkerDecl) (gf : CodeGenerator)
    (h : generate_worker g w = .ok gf) : hasUItem (.worker w) = false := by
  simp only [generate_worker] at h
  obtain ⟨g1, _, h2⟩ := andThen_eq_ok h
  obtain ⟨g2, h3, _⟩ := andThen_eq_ok h2
  have hb := okbad_block _ w.body _ h3
  simp [hasUItem, hb]

theorem okbad_function (g : CodeGenerator) (f : FunctionDecl) (gf : CodeGenerator)
    (h : generate_function g f = .ok gf) : hasUItem (.function f) = false := by
  simp only [generate_function] at h
  obtain ⟨g1, _, h2⟩ := andThen_eq_ok h
  obtain ⟨g2, h3, _⟩ := andThen_eq_ok h2
  have hb := okbad_block _ f.body _ h3
  simp [hasUItem, hb]

theorem okbad_items (g : CodeGenerator) (items : List Item) (gf : CodeGenerator)
    (h : generate_items g items = .ok gf) : items.any hasUItem = false := by
  induction items generalizing g with
  | nil => simp
  | cons it rest ih =>
    cases it with
    | worker w =>
      simp only [generate_items] at h
      obtain ⟨gm, h1, h2⟩ := andThen_eq_ok h
      have hw := okbad_worker _ w _ h1
      have hr := ih _ h2
      simp_all
    | function f =>
      simp only [generate_items] at h
      obtain ⟨gm, h1, h2⟩ := andThen_eq_ok h
      have hf := okbad_function _ f _ h1
      have hr := ih _ h2
      simp_all
    | importItem =>
      simp only [generate_items] at h
      have hr := ih _ h
      simp_all [hasUItem]
    | skill =>
      simp only [generate_items] at h
      have hr := ih _ h
      simp_all [hasUItem]
    | traitItem =>
      simp only [generate_items] at h
      have hr := ih _ h
      simp_all [hasUItem]
    | typeItem =>
      simp only [generate_items] at h
      have hr := ih _ h
      simp_all [hasUItem]

theorem generate_ok_no_unsupported (g : CodeGenerator) (p : Program) (s : String)
    (g2 : CodeGenerator) (h : generate g p = .ok s g2) : hasUProgram p = false := by
  unfold generate at h
  simp only [hasUProgram]
  cases hi : generate_items g p.items with
  | ok g1 => exact okbad_items _ _ _ hi
  | err e g1 =>
    rw [hi] at h
    exact GenOut.noConfusion h

/-- C3: for every program whose AST contains an object or array
destructuring pattern, a prompt block (think/ask), or a standalone
do-expression, code generation returns an UnsupportedFeature error — the
`Ok` branch carrying generated text is never reached, so the caller
receives zero emitted output. -/
theorem unsupported_rejection (g : CodeGenerator) (p : Program)
    (hbad : hasUProgram p = true) :
    ∃ m g2, generate g p = .err (.Unsupported m) g2 := by
  cases hgen : generate g p with
  | ok s g2 =>
    have hno := generate_ok_no_unsupported g p s g2 hgen
    rw [hbad] at hno
    exact Bool.noConfusion hno
  | err e g2 =>
    cases e with
    | Unsupported m => exact ⟨m, g2, rfl⟩

/-- Witness for C3 at a concrete program containing a think block. -/
theorem unsupported_rejection_witness :
    hasUProgram ⟨[.worker ⟨"w", [], .mk [.expr (.think [])]⟩]⟩ = true ∧
    ∃ m g2, generate CodeGenerator.new ⟨[.worker ⟨"w", [], .mk [.expr (.think [])]⟩]⟩ =
      .err (.Unsupported m) g2 :=
  ⟨by simp [hasUProgram, hasUItem, hasUBlock, hasUStmts, hasUStmt, hasUE],
   unsupported_rejection CodeGenerator.new _
     (by simp [hasUProgram, hasUItem, hasUBlock, hasUStmts, hasUStmt, hasUE])⟩

/-- C10: `generate` empties the output buffer on success (the result is
moved out), retains all previously emitted text on error (the error
state's buffer extends the entry state's buffer), and a second
successful `generate` on the same instance after an error returns output
that begins with the leftover partial text of the failed run. -/
theorem generate_buffer_state :
    (∀ (g : CodeGenerator) (p : Program) (s : String) (g2 : CodeGenerator),
        generate g p = .ok s g2 → g2.output = "") ∧
    (∀ (g : CodeGenerator) (p : Program) (e : CompileError) (g2 : CodeGenerator),
        generate g p = .err e g2 → ∃ t, g2.output = g.output ++ t) ∧
    (∀ (g : CodeGenerator) (p1 : Program) (e : CompileError) (g1 : CodeGenerator)
        (p2 : Program) (s2 : String) (g2 : CodeGenerator),
        generate g p1 = .err e g1 → generate g1 p2 = .ok s2 g2 →
        ∃ t, s2 = g1.output ++ t) := by
  refine ⟨?_, ?_, ?_⟩
  · intro g p s g2 h
    unfold generate at h
    cases hi : generate_items g p.items with
    | ok g1 =>
      rw [hi] at h
      cases h
      rfl
    | err e g1 =>
      rw [hi] at h
      exact GenOut.noConfusion h
  · intro g p e g2 h
    unfold generate at h
    cases hi : generate_items g p.items with
    | ok g1 =>
      rw [hi] at h
      exact GenOut.noConfusion h
    | err e1 g1 =>
      rw [hi] at h
      cases h
      have hm := mono_items g p.items
      rw [hi] at hm
      simpa using hm
  · intro g p1 e g1 p2 s2 g2 h1 h2
    unfold generate at h2
    cases hi : generate_items g1 p2.items with
    | ok gi =>
      rw [hi] at h2
      cases h2
      have hm := mono_items g1 p2.items
      rw [hi] at hm
      simpa using hm
    | err e2 gi =>
      rw [hi] at h2
      exact GenOut.noConfusion h2

/-- Witness for C10: a first run failing on a destructuring pattern
leaves the partial worker text in the buffer, and a second, successful
run returns output beginning with that leftover text; the success state
has an empty buffer. -/
theorem generate_buffer_state_witness :
    (({ indent := 1, output := "" } : CodeGenerator).output = "") ∧
    (∃ t, ({ indent := 1, output := "export function w() \x7b\n  " } : CodeGenerator).output =
      CodeGenerator.new.output ++ t) ∧
    (∃ t, ("export function w() \x7b\n  export function v() \x7b\n\x7d\n\n" : String) =
      ({ indent := 1, output := "export function w() \x7b\n  " } : CodeGenerator).output ++ t) := by
  have simpset1 : generate CodeGenerator.new ⟨[.worker ⟨"w", [], .mk [.varDecl (.object []) none]⟩]⟩ =
      .err (.Unsupported "Object destructuring not yet supported in Phase 2")
        { indent := 1, output := "export function w() \x7b\n  " } := by
    simp [generate, generate_items, generate_worker, generate_params, params_loop,
      generate_block, generate_stmts, generate_statement, generate_var_decl,
      write_indent, indentStr, CodeGenerator.push, CodeGenerator.new,
      CodeGenerator.incIndent, CodeGenerator.decIndent, GenRes.andThen]
  have simpset2 : generate { indent := 1, output := "export function w() \x7b\n  " }
      ⟨[.worker ⟨"v", [], .mk []⟩]⟩ =
      .ok "export function w() \x7b\n  export function v() \x7b\n\x7d\n\n"
        { indent := 1, output := "" } := by
    simp [generate, generate_items, generate_worker, generate_params, params_loop,
      generate_block, generate_stmts, generate_statement,
      write_indent, indentStr, CodeGenerator.push, CodeGenerator.new,
      CodeGenerator.incIndent, CodeGenerator.decIndent, GenRes.andThen]
  refine ⟨generate_buffer_state.1 _ _ _ _ simpset2, generate_buffer_state.2.1 _ _ _ _ simpset1, generate_buffer_state.2.2 _ _ _ _ _ _ _ simpset1 simpset2⟩

theorem push_empty (g : CodeGenerator) : g.push "" = g := by
  cases g with
  | mk i o => simp [CodeGenerator.push, str_append_nil]

theorem escChar_cons (c : Char) : ∃ d tl, escChar c = d :: tl := by
  unfold escChar
  split
  · exact ⟨_, _, rfl⟩
  · split
    · exact ⟨_, _, rfl⟩
    · split
      · exact ⟨_, _, rfl⟩
      · split
        · exact ⟨_, _, rfl⟩
        · split
          · exact ⟨_, _, rfl⟩
          · exact ⟨_, _, rfl⟩

theorem unescape_escape_chars (cs : List Char) : unescapeChars (escapeChars cs) = cs := by
  induction cs with
  | nil => rfl
  | cons c rest ih =>
    show unescapeChars (escChar c ++ escapeChars rest) = c :: rest
    by_cases h1 : c = '\\'
    · simp [escChar, h1, unescapeChars, decodeEsc, ih]
    · by_cases h2 : c = '"'
      · simp [escChar, h1, h2, unescapeChars, decodeEsc, ih]
      · by_cases h3 : c = '\n'
        · simp [escChar, h1, h2, h3, unescapeChars, decodeEsc, ih]
        · by_cases h4 : c = '\r'
          · simp [escChar, h1, h2, h3, h4, unescapeChars, decodeEsc, ih]
          · by_cases h5 : c = '\t'
            · simp [escChar, h1, h2, h3, h4, h5, unescapeChars, decodeEsc, ih]
            · have hesc : escChar c = [c] := by simp [escChar, h1, h2, h3, h4, h5]
              rw [hesc]
              cases hrest : rest with
              | nil => simp [escapeChars, unescapeChars]
              | cons c2 r2 =>
                obtain ⟨d, tl, hdt⟩ := escChar_cons c2
                have hexp : escapeChars (c2 :: r2) = d :: (tl ++ escapeChars r2) := by
                  simp [escapeChars, hdt]
                rw [hexp]
                simp only [List.singleton_append]
                have hstep : unescapeChars (c :: d :: (tl ++ escapeChars r2)) =
                    c :: unescapeChars (d :: (tl ++ escapeChars r2)) := by
                  simp [unescapeChars, h1]
                rw [hstep, ← hexp, ← hrest, ih]

theorem unescape_escape (s : String) : unescape_string (escape_string s) = s := by
  unfold escape_string unescape_string
  cases s with
  | mk data => simp [unescape_escape_chars]

/-- C4: a string literal consisting of exactly one plain Text part is
emitted as a double-quoted literal whose content is the escaped text
(backslash, quote, newline, carriage return, tab), and decoding those
escapes reproduces the original text exactly. -/
theorem string_literal_roundtrip (g : CodeGenerator) (t : String) :
    generate_string_literal g [.text t] = .ok (g.push ("\"" ++ escape_string t ++ "\"")) ∧
    unescape_string (escape_string t) = t :=
  ⟨by simp [generate_string_literal], unescape_escape t⟩

/-- C8: the modelled grammar of §4.2 parses `a + b * c` as an addition
whose right operand is the multiplication, and `a * b + c` as an
addition whose left operand is the multiplication: multiplicative
operators bind tighter than additive ones, never the shape
`(a + b) * c`. -/
theorem precedence_mul_over_add :
    (∀ a b c : String, parse_expr [.num a, .plus, .num b, .star, .num c] =
      some (.binary .add (.number a) (.binary .mul (.number b) (.number c)), [])) ∧
    (∀ a b c : String, parse_expr [.num a, .star, .num b, .plus, .num c] =
      some (.binary .add (.binary .mul (.number a) (.number b)) (.number c), [])) :=
  ⟨fun _ _ _ => rfl, fun _ _ _ => rfl⟩

/-- C9: in the modelled grammar of §4.2, `return` immediately followed
by a newline and then an identifier parses as two statements — a
value-less return, then an expression statement — while without the
newline it is a single `return` with value. -/
theorem return_newline_separation :
    (∀ x : String, parse_statements [.kwReturn, .newline, .ident x] =
      some [.ret none, .expr (.identifier x)]) ∧
    (∀ x : String, parse_statements [.kwReturn, .ident x] =
      some [.ret (some (.identifier x))]) :=
  ⟨fun _ => rfl, fun _ => rfl⟩

theorem params_loop_false (ps : List Param) (g : CodeGenerator) :
    params_loop g ps false = g.push (paramsTextTail ps) := by
  induction ps generalizing g with
  | nil => simp [params_loop, paramsTextTail, push_empty]
  | cons q rest ih =>
    simp [params_loop, paramsTextTail, ih, push_push, str_append_assoc]

theorem params_spec (g : CodeGenerator) (ps : List Param) :
    generate_params g ps = .ok (g.push ("(" ++ (paramsText ps ++ ")"))) := by
  cases ps with
  | nil => simp [generate_params, params_loop, paramsText, push_push, String.empty_append]
  | cons p rest =>
    simp [generate_params, params_loop, paramsText, params_loop_false, push_push,
      str_append_assoc]

theorem template_parts_plain (parts : List StringPart) (h : partsArePlain parts = true)
    (g : CodeGenerator) :
    generate_template_parts g parts = .ok (g.push (plainPartsText parts)) := by
  induction parts generalizing g with
  | nil => simp [generate_template_parts, plainPartsText, push_empty]
  | cons p rest ih =>
    cases p with
    | text t =>
      simp only [partsArePlain] at h
      simp [generate_template_parts, plainPartsText, ih h, push_push, str_append_assoc]
    | interpolation e => simp [partsArePlain] at h

theorem command_args_plain (args : List CommandArg) (h : argsArePlain args = true)
    (g : CodeGenerator) :
    generate_command_args g args = .ok (g.push (plainArgsText args)) := by
  induction args generalizing g with
  | nil => simp [generate_command_args, plainArgsText, push_empty]
  | cons a rest ih =>
    simp only [argsArePlain, Bool.and_eq_true] at h
    cases a with
    | literal lit =>
      simp [generate_command_args, plainArgsText, plainArgText, ih h.2, push_push,
        str_append_assoc]
    | string parts =>
      simp only [argIsPlain] at h
      simp [generate_command_args, plainArgsText, plainArgText,
        template_parts_plain parts h.1, ih h.2, push_push, str_append_assoc]

theorem command_template_plain (g : CodeGenerator) (name : String) (args : List CommandArg)
    (h : argsArePlain args = true) :
    generate_command_template g name args =
      .ok (g.push ("`" ++ (name ++ (plainArgsText args ++ "`")))) := by
  simp [generate_command_template, command_args_plain args h, push_push, str_append_assoc]

/-- C5: a bare shell command statement is lowered to a single shell-exec
helper call whose templated command string is the command name followed
by its arguments, each preceded by one space — literal tokens verbatim,
interpolation-free string arguments contributing their escaped text —
and in particular `echo "hello"` yields the template `echo hello`. -/
theorem shell_command_template_text :
    (∀ (g : CodeGenerator) (name : String) (args : List CommandArg),
      argsArePlain args = true →
      generate_shell_command g name args =
        .ok (g.push ("await $shell(" ++ ("`" ++ (name ++ (plainArgsText args ++ "`)")))))) ∧
    (generate_shell_command CodeGenerator.new "echo" [.string [.text "hello"]] =
      .ok { indent := 0, output := "await $shell(`echo hello`)" }) := by
  constructor
  · intro g name args h
    have ht := command_template_plain (g.push "await $shell(") name args h
    simp [generate_shell_command, ht, push_push, str_append_assoc]
  · have h := command_template_plain (CodeGenerator.new.push "await $shell(") "echo"
      [.string [.text "hello"]] (by rfl)
    simp only [generate_shell_command, h, andThen_ok]
    simp [CodeGenerator.push, CodeGenerator.new, plainArgsText, plainArgText,
      plainPartsText, escape_template_literal, escTmplChars]

/-- Witness for C5: the statement-form lowering of `echo "hello"`. -/
theorem shell_command_template_text_witness :
    argsArePlain [.string [.text "hello"]] = true ∧
    generate_shell_command CodeGenerator.new "echo" [.string [.text "hello"]] =
      .ok (CodeGenerator.new.push ("await $shell(" ++ ("`" ++ ("echo" ++
        (plainArgsText [.string [.text "hello"]] ++ "`)"))))) :=
  ⟨rfl, shell_command_template_text.1 CodeGenerator.new "echo" [.string [.text "hello"]] rfl⟩

/-- C6: for the same inner bare command, the expression form
`$(cmd)` emits exactly the statement-form shell-exec call with the
trailing `)` replaced by the capture-flag suffix — both forms share the
identical command template, succeeding and failing in lockstep — and in
particular `$(ls)` emits the capture-flagged call. -/
theorem command_subst_capture_flag :
    (∀ (g : CodeGenerator) (name : String) (args : List CommandArg) (gt : CodeGenerator),
      generate_command_template (g.push "await $shell(") name args = .ok gt →
      generate_shell_command g name args = .ok (gt.push ")") ∧
      generate_command_subst g (.bareCommand name args) =
        .ok (gt.push ", \x7bcapture: true\x7d)")) ∧
    (∀ (g : CodeGenerator) (name : String) (args : List CommandArg) (e : CompileError)
      (gt : CodeGenerator),
      generate_command_template (g.push "await $shell(") name args = .err e gt →
      generate_shell_command g name args = .err e gt ∧
      generate_command_subst g (.bareCommand name args) = .err e gt) ∧
    (generate_command_subst CodeGenerator.new (.bareCommand "ls" []) =
      .ok { indent := 0, output := "await $shell(`ls`, \x7bcapture: true\x7d)" }) := by
  refine ⟨?_, ?_, ?_⟩
  · intro g name args gt h
    constructor
    · simp [generate_shell_command, h]
    · simp [generate_command_subst, h]
  · intro g name args e gt h
    constructor
    · simp [generate_shell_command, h]
    · simp [generate_command_subst, h]
  · have h := command_template_plain (CodeGenerator.new.push "await $shell(") "ls" [] (by rfl)
    simp only [generate_command_subst, h, andThen_ok]
    simp [CodeGenerator.push, CodeGenerator.new, plainArgsText]

/-- Witness for C6: both lowerings of the command `ls`, and the lockstep
failure on a command argument holding a prompt-block interpolation. -/
theorem command_subst_capture_flag_witness :
    (generate_shell_command CodeGenerator.new "ls" [] =
      .ok (({ indent := 0, output := "await $shell(`ls`" } : CodeGenerator).push ")") ∧
     generate_command_subst CodeGenerator.new (.bareCommand "ls" []) =
      .ok (({ indent := 0, output := "await $shell(`ls`" } : CodeGenerator).push
        ", \x7bcapture: true\x7d)")) ∧
    (generate_shell_command CodeGenerator.new "ls"
        [.string [.interpolation (.think [])]] =
      .err (.Unsupported "Prompt blocks not yet supported in Phase 2")
        { indent := 0, output := "await $shell(`ls $\x7b" } ∧
     generate_command_subst CodeGenerator.new
        (.bareCommand "ls" [.string [.interpolation (.think [])]]) =
      .err (.Unsupported "Prompt blocks not yet supported in Phase 2")
        { indent := 0, output := "await $shell(`ls $\x7b" }) := by
  constructor
  · refine command_subst_capture_flag.1 CodeGenerator.new "ls" [] _ ?_
    have h := command_template_plain (CodeGenerator.new.push "await $shell(") "ls" [] (by rfl)
    simpa [CodeGenerator.push, CodeGenerator.new, plainArgsText] using h
  · refine command_subst_capture_flag.2.1 CodeGenerator.new "ls" _ _ _ ?_
    simp [generate_command_template, generate_command_args, generate_template_parts,
      generate_expr, CodeGenerator.push, CodeGenerator.new, GenRes.andThen]

theorem worker_output (g : CodeGenerator) (w : WorkerDecl) (gf : CodeGenerator)
    (h : generate_worker g w = .ok gf) :
    ∃ body, gf.output = g.output ++ ("export function " ++ (w.name ++ ("(" ++
      (paramsText w.params ++ (") \x7b\n" ++ (body ++ "\x7d\n")))))) := by
  unfold generate_worker at h
  rw [params_spec] at h
  simp only [andThen_ok] at h
  obtain ⟨g2, hb, hl⟩ := andThen_eq_ok h
  obtain ⟨body, hbody⟩ := mono_block _ w.body
  rw [hb] at hbody
  simp only [st_ok] at hbody
  cases hl
  refine ⟨body, ?_⟩
  simp [CodeGenerator.push, CodeGenerator.decIndent, CodeGenerator.incIndent, hbody,
    str_append_assoc]

theorem function_output (g : CodeGenerator) (f : FunctionDecl) (gf : CodeGenerator)
    (h : generate_function g f = .ok gf) :
    ∃ body, gf.output = g.output ++ ((if f.is_exported then "export " else "") ++
      ("function " ++ (f.name ++ ("(" ++ (paramsText f.params ++
        (") \x7b\n" ++ (body ++ "\x7d\n"))))))) := by
  unfold generate_function at h
  rw [params_spec] at h
  simp only [andThen_ok] at h
  obtain ⟨g2, hb, hl⟩ := andThen_eq_ok h
  obtain ⟨body, hbody⟩ := mono_block _ f.body
  rw [hb] at hbody
  simp only [st_ok] at hbody
  cases hl
  refine ⟨body, ?_⟩
  simp [CodeGenerator.push, CodeGenerator.decIndent, CodeGenerator.incIndent, hbody,
    str_append_assoc]

/-- C7: the callable generated for a function declaration carries the
`export ` marker exactly when the declaration is marked exported — the
emitted text ahead of `function <name>(` is `export ` when exported and
empty otherwise; in particular `fun f(x) \x7b\x7d` compiles without the
marker and the exported form with it. -/
theorem function_export_marker :
    (∀ (g : CodeGenerator) (f : FunctionDecl) (gf : CodeGenerator),
      generate_function g f = .ok gf →
      ∃ body, gf.output = g.output ++ ((if f.is_exported then "export " else "") ++
        ("function " ++ (f.name ++ ("(" ++ (paramsText f.params ++
          (") \x7b\n" ++ (body ++ "\x7d\n")))))))) ∧
    (generate_function CodeGenerator.new ⟨"f", [⟨"x"⟩], .mk [], false⟩ =
      .ok { indent := 0, output := "function f(x) \x7b\n\x7d\n" }) ∧
    (generate_function CodeGenerator.new ⟨"f", [⟨"x"⟩], .mk [], true⟩ =
      .ok { indent := 0, output := "export function f(x) \x7b\n\x7d\n" }) := by
  refine ⟨function_output, ?_, ?_⟩
  · simp [generate_function, generate_params, params_loop, generate_block, generate_stmts,
      CodeGenerator.push, CodeGenerator.new, CodeGenerator.incIndent, CodeGenerator.decIndent,
      GenRes.andThen]
  · simp [generate_function, generate_params, params_loop, generate_block, generate_stmts,
      CodeGenerator.push, CodeGenerator.new, CodeGenerator.incIndent, CodeGenerator.decIndent,
      GenRes.andThen]

/-- Witness for C7: the unexported declaration `fun f(x) \x7b\x7d` emits no
export marker text ahead of `function f`. -/
theorem function_export_marker_witness :
    ∃ body, ({ indent := 0, output := "function f(x) \x7b\n\x7d\n" } : CodeGenerator).output =
      CodeGenerator.new.output ++ ((if (false : Bool) then "export " else "") ++
        ("function " ++ ("f" ++ ("(" ++ (paramsText [⟨"x"⟩] ++
          (") \x7b\n" ++ (body ++ "\x7d\n"))))))) :=
  function_export_marker.1 CodeGenerator.new ⟨"f", [⟨"x"⟩], .mk [], false⟩ _
    function_export_marker.2.1

mutual

theorem badlow_expr (e : Expr) (hb : hasBadSelfE e = true) :
    ∃ n, lower_self e = .error n := by
  cases e with
  | identifier nm =>
    simp only [hasBadSelfE, decide_eq_true_eq] at hb
    exact ⟨"self", by simp [lower_self, hb]⟩
  | member o f =>
    simp only [hasBadSelfE] at hb
    obtain ⟨n, hn⟩ := badlow_member o f hb
    exact ⟨n, by simp [lower_self, hn]⟩
  | string parts =>
    simp only [hasBadSelfE] at hb
    obtain ⟨n, hn⟩ := badlow_parts _ hb
    exact ⟨n, by simp [lower_self, hn]⟩
  | array items =>
    simp only [hasBadSelfE] at hb
    obtain ⟨n, hn⟩ := badlow_list _ hb
    exact ⟨n, by simp [lower_self, hn]⟩
  | object fields =>
    simp only [hasBadSelfE] at hb
    obtain ⟨n, hn⟩ := badlow_fields _ hb
    exact ⟨n, by simp [lower_self, hn]⟩
  | binary op l r =>
    simp only [hasBadSelfE, Bool.or_eq_true] at hb
    cases hb with
    | inl hl =>
      obtain ⟨n, hn⟩ := badlow_expr _ hl
      exact ⟨n, by simp [lower_self, hn]⟩
    | inr hr =>
      obtain ⟨n, hn⟩ := badlow_expr _ hr
      cases hL : lower_self l with
      | ok l2 => exact ⟨n, by simp [lower_self, hL, hn]⟩
      | error n2 => exact ⟨n2, by simp [lower_self, hL]⟩
  | unary op o =>
    simp only [hasBadSelfE] at hb
    obtain ⟨n, hn⟩ := badlow_expr _ hb
    exact ⟨n, by simp [lower_self, hn]⟩
  | call c args =>
    simp only [hasBadSelfE, Bool.or_eq_true] at hb
    cases hb with
    | inl hl =>
      obtain ⟨n, hn⟩ := badlow_expr _ hl
      exact ⟨n, by simp [lower_self, hn]⟩
    | inr hr =>
      obtain ⟨n, hn⟩ := badlow_list _ hr
      cases hL : lower_self c with
      | ok c2 => exact ⟨n, by simp [lower_self, hL, hn]⟩
      | error n2 => exact ⟨n2, by simp [lower_self, hL]⟩
  | index o i =>
    simp only [hasBadSelfE, Bool.or_eq_true] at hb
    cases hb with
    | inl hl =>
      obtain ⟨n, hn⟩ := badlow_expr _ hl
      exact ⟨n, by simp [lower_self, hn]⟩
    | inr hr =>
      obtain ⟨n, hn⟩ := badlow_expr _ hr
      cases hL : lower_self o with
      | ok o2 => exact ⟨n, by simp [lower_self, hL, hn]⟩
      | error n2 => exact ⟨n2, by simp [lower_self, hL]⟩
  | paren inner =>
    simp only [hasBadSelfE] at hb
    obtain ⟨n, hn⟩ := badlow_expr _ hb
    exact ⟨n, by simp [lower_self, hn]⟩
  | postIncrement o =>
    simp only [hasBadSelfE] at hb
    obtain ⟨n, hn⟩ := badlow_expr _ hb
    exact ⟨n, by simp [lower_self, hn]⟩
  | postDecrement o =>
    simp only [hasBadSelfE] at hb
    obtain ⟨n, hn⟩ := badlow_expr _ hb
    exact ⟨n, by simp [lower_self, hn]⟩
  | await inner =>
    simp only [hasBadSelfE] at hb
    obtain ⟨n, hn⟩ := badlow_expr _ hb
    exact ⟨n, by simp [lower_self, hn]⟩
  | bareCommand name args =>
    simp only [hasBadSelfE] at hb
    obtain ⟨n, hn⟩ := badlow_args _ hb
    exact ⟨n, by simp [lower_self, hn]⟩
  | commandSubst cmd =>
    simp only [hasBadSelfE] at hb
    obtain ⟨n, hn⟩ := badlow_expr _ hb
    exact ⟨n, by simp [lower_self, hn]⟩
  | shellPipe l r =>
    simp only [hasBadSelfE, Bool.or_eq_true] at hb
    cases hb with
    | inl hl =>
      obtain ⟨n, hn⟩ := badlow_expr _ hl
      exact ⟨n, by simp [lower_self, hn]⟩
    | inr hr =>
      obtain ⟨n, hn⟩ := badlow_expr _ hr
      cases hL : lower_self l with
      | ok l2 => exact ⟨n, by simp [lower_self, hL, hn]⟩
      | error n2 => exact ⟨n2, by simp [lower_self, hL]⟩
  | shellAnd l r =>
    simp only [hasBadSelfE, Bool.or_eq_true] at hb
    cases hb with
    | inl hl =>
      obtain ⟨n, hn⟩ := badlow_expr _ hl
      exact ⟨n, by simp [lower_self, hn]⟩
    | inr hr =>
      obtain ⟨n, hn⟩ := badlow_expr _ hr
      cases hL : lower_self l with
      | ok l2 => exact ⟨n, by simp [lower_self, hL, hn]⟩
      | error n2 => exact ⟨n2, by simp [lower_self, hL]⟩
  | shellOr l r =>
    simp only [hasBadSelfE, Bool.or_eq_true] at hb
    cases hb with
    | inl hl =>
      obtain ⟨n, hn⟩ := badlow_expr _ hl
      exact ⟨n, by simp [lower_self, hn]⟩
    | inr hr =>
      obtain ⟨n, hn⟩ := badlow_expr _ hr
      cases hL : lower_self l with
      | ok l2 => exact ⟨n, by simp [lower_self, hL, hn]⟩
      | error n2 => exact ⟨n2, by simp [lower_self, hL]⟩
  | shellRedirect c op t =>
    simp only [hasBadSelfE, Bool.or_eq_true] at hb
    cases hb with
    | inl hl =>
      obtain ⟨n, hn⟩ := badlow_expr _ hl
      exact ⟨n, by simp [lower_self, hn]⟩
    | inr hr =>
      obtain ⟨n, hn⟩ := badlow_expr _ hr
      cases hL : lower_self c with
      | ok c2 => exact ⟨n, by simp [lower_self, hL, hn]⟩
      | error n2 => exact ⟨n2, by simp [lower_self, hL]⟩
  | number n => simp [hasBadSelfE] at hb
  | trueLit => simp [hasBadSelfE] at hb
  | falseLit => simp [hasBadSelfE] at hb
  | think pb => simp [hasBadSelfE] at hb
  | ask pb => simp [hasBadSelfE] at hb
  | doExpr b => simp [hasBadSelfE] at hb
termination_by 10 * sizeOf e
decreasing_by
  all_goals subst_vars
  all_goals simp_wf
  all_goals try omega

theorem badlow_member (o : Expr) (f : String) (hb : hasBadMember o f = true) :
    ∃ n, lower_member o f = .error n := by
  cases o
  case identifier os =>
    simp only [hasBadMember, decide_eq_true_eq] at hb
    exact ⟨f, by simp [lower_member, hb]⟩
  case member o2 sf =>
    cases o2
    case identifier os =>
      simp only [hasBadMember] at hb
      by_cases hos : os = "self"
      · rw [if_pos hos] at hb
        by_cases hsf : sf = "session"
        · rw [if_pos hsf] at hb
          by_cases hf : f ∈ sessionFields
          · rw [if_pos hf] at hb
            exact Bool.noConfusion hb
          · exact ⟨f, by simp [lower_member, hos, hsf, hf]⟩
        · exact ⟨sf, by simp [lower_member, hos, hsf]⟩
      · rw [if_neg hos] at hb
        exact Bool.noConfusion hb
    all_goals
      simp only [hasBadMember] at hb
    all_goals
      obtain ⟨n, hn⟩ := badlow_expr _ hb
    all_goals
      exact ⟨n, by simp [lower_member, hn]⟩
  all_goals
    simp only [hasBadMember] at hb
  all_goals
    obtain ⟨n, hn⟩ := badlow_expr _ hb
  all_goals
    exact ⟨n, by simp [lower_member, hn]⟩
termination_by 10 * sizeOf o + 1
decreasing_by
  all_goals subst_vars
  all_goals simp_wf
  all_goals try omega

theorem badlow_list (es : List Expr) (hb : hasBadSelfList es = true) :
    ∃ n, lower_list es = .error n := by
  cases es with
  | nil => simp [hasBadSelfList] at hb
  | cons e rest =>
    simp only [hasBadSelfList, Bool.or_eq_true] at hb
    cases hb with
    | inl hl =>
      obtain ⟨n, hn⟩ := badlow_expr _ hl
      exact ⟨n, by simp [lower_list, hn]⟩
    | inr hr =>
      obtain ⟨n, hn⟩ := badlow_list _ hr
      cases hL : lower_self e with
      | ok e2 => exact ⟨n, by simp [lower_list, hL, hn]⟩
      | error n2 => exact ⟨n2, by simp [lower_list, hL]⟩
termination_by 10 * sizeOf es
decreasing_by
  all_goals subst_vars
  all_goals simp_wf
  all_goals try omega

theorem badlow_fields (fs : List ObjField) (hb : hasBadSelfFields fs = true) :
    ∃ n, lower_fields fs = .error n := by
  cases fs with
  | nil => simp [hasBadSelfFields] at hb
  | cons fl rest =>
    cases fl with
    | mk k val =>
      cases val with
      | some v =>
        simp only [hasBadSelfFields, Bool.or_eq_true] at hb
        cases hb with
        | inl hl =>
          obtain ⟨n, hn⟩ := badlow_expr _ hl
          exact ⟨n, by simp [lower_fields, hn]⟩
        | inr hr =>
          obtain ⟨n, hn⟩ := badlow_fields _ hr
          cases hL : lower_self v with
          | ok v2 => exact ⟨n, by simp [lower_fields, hL, hn]⟩
          | error n2 => exact ⟨n2, by simp [lower_fields, hL]⟩
      | none =>
        simp only [hasBadSelfFields] at hb
        obtain ⟨n, hn⟩ := badlow_fields _ hb
        exact ⟨n, by simp [lower_fields, hn]⟩
termination_by 10 * sizeOf fs
decreasing_by
  all_goals subst_vars
  all_goals simp_wf
  all_goals try omega

theorem badlow_parts (ps : List StringPart) (hb : hasBadSelfParts ps = true) :
    ∃ n, lower_parts ps = .error n := by
  cases ps with
  | nil => simp [hasBadSelfParts] at hb
  | cons p rest =>
    cases p with
    | text t =>
      simp only [hasBadSelfParts] at hb
      obtain ⟨n, hn⟩ := badlow_parts _ hb
      exact ⟨n, by simp [lower_parts, hn]⟩
    | interpolation e =>
      simp only [hasBadSelfParts, Bool.or_eq_true] at hb
      cases hb with
      | inl hl =>
        obtain ⟨n, hn⟩ := badlow_expr _ hl
        exact ⟨n, by simp [lower_parts, hn]⟩
      | inr hr =>
        obtain ⟨n, hn⟩ := badlow_parts _ hr
        cases hL : lower_self e with
        | ok e2 => exact ⟨n, by simp [lower_parts, hL, hn]⟩
        | error n2 => exact ⟨n2, by simp [lower_parts, hL]⟩
termination_by 10 * sizeOf ps
decreasing_by
  all_goals subst_vars
  all_goals simp_wf
  all_goals try omega

theorem badlow_args (args : List CommandArg) (hb : hasBadSelfArgs args = true) :
    ∃ n, lower_args args = .error n := by
  cases args with
  | nil => simp [hasBadSelfArgs] at hb
  | cons a rest =>
    cases a with
    | literal lit =>
      simp only [hasBadSelfArgs] at hb
      obtain ⟨n, hn⟩ := badlow_args _ hb
      exact ⟨n, by simp [lower_args, hn]⟩
    | string ps =>
      simp only [hasBadSelfArgs, Bool.or_eq_true] at hb
      cases hb with
      | inl hl =>
        obtain ⟨n, hn⟩ := badlow_parts _ hl
        exact ⟨n, by simp [lower_args, hn]⟩
      | inr hr =>
        obtain ⟨n, hn⟩ := badlow_args _ hr
        cases hL : lower_parts ps with
        | ok ps2 => exact ⟨n, by simp [lower_args, hL, hn]⟩
        | error n2 => exact ⟨n2, by simp [lower_args, hL]⟩
termination_by 10 * sizeOf args
decreasing_by
  all_goals subst_vars
  all_goals simp_wf
  all_goals try omega

theorem badlow_stmt (st : Statement) (hb : hasBadSelfStmt st = true) :
    ∃ n, lower_stmt st = .error n := by
  cases st with
  | varDecl p init =>
    cases init with
    | some e =>
      unfold hasBadSelfStmt at hb
      obtain ⟨n, hn⟩ := badlow_expr _ hb
      exact ⟨n, by simp [lower_stmt, hn]⟩
    | none => (unfold hasBadSelfStmt at hb; exact Bool.noConfusion hb)
  | expr e =>
    unfold hasBadSelfStmt at hb
    obtain ⟨n, hn⟩ := badlow_expr _ hb
    exact ⟨n, by simp [lower_stmt, hn]⟩
  | ifStmt c t eb =>
    unfold hasBadSelfStmt at hb
    simp only [Bool.or_eq_true] at hb
    rcases hb with (hc | ht) | he
    · obtain ⟨n, hn⟩ := badlow_expr _ hc
      exact ⟨n, by simp [lower_stmt, hn]⟩
    · obtain ⟨n, hn⟩ := badlow_block _ ht
      cases hL : lower_self c with
      | ok c2 => exact ⟨n, by simp [lower_stmt, hL, hn]⟩
      | error n2 => exact ⟨n2, by simp [lower_stmt, hL]⟩
    · cases eb with
      | none => simp at he
      | some b =>
        obtain ⟨n, hn⟩ := badlow_block b he
        cases hL : lower_self c with
        | error n2 => exact ⟨n2, by simp [lower_stmt, hL]⟩
        | ok c2 =>
          cases hT : lower_block t with
          | error n3 => exact ⟨n3, by simp [lower_stmt, hL, hT]⟩
          | ok t2 => exact ⟨n, by simp [lower_stmt, lower_opt_block, hL, hT, hn]⟩
  | whileStmt c b =>
    unfold hasBadSelfStmt at hb
    simp only [Bool.or_eq_true] at hb
    cases hb with
    | inl hc =>
      obtain ⟨n, hn⟩ := badlow_expr _ hc
      exact ⟨n, by simp [lower_stmt, hn]⟩
    | inr hbb =>
      obtain ⟨n, hn⟩ := badlow_block _ hbb
      cases hL : lower_self c with
      | ok c2 => exact ⟨n, by simp [lower_stmt, hL, hn]⟩
      | error n2 => exact ⟨n2, by simp [lower_stmt, hL]⟩
  | forIn v it b =>
    unfold hasBadSelfStmt at hb
    simp only [Bool.or_eq_true] at hb
    cases hb with
    | inl hc =>
      obtain ⟨n, hn⟩ := badlow_expr _ hc
      exact ⟨n, by simp [lower_stmt, hn]⟩
    | inr hbb =>
      obtain ⟨n, hn⟩ := badlow_block _ hbb
      cases hL : lower_self it with
      | ok it2 => exact ⟨n, by simp [lower_stmt, hL, hn]⟩
      | error n2 => exact ⟨n2, by simp [lower_stmt, hL]⟩
  | ret oe =>
    cases oe with
    | some e =>
      unfold hasBadSelfStmt at hb
      obtain ⟨n, hn⟩ := badlow_expr _ hb
      exact ⟨n, by simp [lower_stmt, hn]⟩
    | none => (unfold hasBadSelfStmt at hb; exact Bool.noConfusion hb)
  | breakStmt => (unfold hasBadSelfStmt at hb; exact Bool.noConfusion hb)
  | succeed => (unfold hasBadSelfStmt at hb; exact Bool.noConfusion hb)
  | typeDecl => (unfold hasBadSelfStmt at hb; exact Bool.noConfusion hb)
termination_by 10 * sizeOf st + 5
decreasing_by
  all_goals subst_vars
  all_goals simp_wf
  all_goals try omega

theorem badlow_block (b : Block) (hb : hasBadSelfBlock b = true) :
    ∃ n, lower_block b = .error n := by
  cases b with
  | mk ss =>
    simp only [hasBadSelfBlock] at hb
    obtain ⟨n, hn⟩ := badlow_stmts _ hb
    exact ⟨n, by simp [lower_block, hn]⟩
termination_by 10 * sizeOf b
decreasing_by
  all_goals subst_vars
  all_goals simp_wf
  all_goals try omega

theorem badlow_stmts (ss : List Statement) (hb : hasBadSelfStmts ss = true) :
    ∃ n, lower_stmts ss = .error n := by
  cases ss with
  | nil => simp [hasBadSelfStmts] at hb
  | cons st rest =>
    simp only [hasBadSelfStmts, Bool.or_eq_true] at hb
    cases hb with
    | inl hl =>
      obtain ⟨n, hn⟩ := badlow_stmt _ hl
      exact ⟨n, by simp [lower_stmts, hn]⟩
    | inr hr =>
      obtain ⟨n, hn⟩ := badlow_stmts _ hr
      cases hL : lower_stmt st with
      | ok s2 => exact ⟨n, by simp [lower_stmts, hL, hn]⟩
      | error n2 => exact ⟨n2, by simp [lower_stmts, hL]⟩
termination_by 10 * sizeOf ss
decreasing_by
  all_goals subst_vars
  all_goals simp_wf
  all_goals try omega

end

theorem badlow_item (it : Item) (hb : hasBadSelfItem it = true) :
    ∃ n, lower_session_item it = .error n := by
  cases it with
  | worker w =>
    simp only [hasBadSelfItem] at hb
    obtain ⟨n, hn⟩ := badlow_block _ hb
    exact ⟨n, by simp [lower_session_item, hn]⟩
  | function f =>
    simp only [hasBadSelfItem] at hb
    obtain ⟨n, hn⟩ := badlow_block _ hb
    exact ⟨n, by simp [lower_session_item, hn]⟩
  | importItem => simp [hasBadSelfItem] at hb
  | skill => simp [hasBadSelfItem] at hb
  | traitItem => simp [hasBadSelfItem] at hb
  | typeItem => simp [hasBadSelfItem] at hb

theorem badlow_items (items : List Item) (hb : items.any hasBadSelfItem = true) :
    ∃ n, lower_items items = .error n := by
  induction items with
  | nil => simp at hb
  | cons it rest ih =>
    simp only [List.any_cons, Bool.or_eq_true] at hb
    cases hb with
    | inl hl =>
      obtain ⟨n, hn⟩ := badlow_item _ hl
      exact ⟨n, by simp [lower_items, hn]⟩
    | inr hr =>
      obtain ⟨n, hn⟩ := ih hr
      cases hL : lower_session_item it with
      | ok it2 => exact ⟨n, by simp [lower_items, hL, hn]⟩
      | error n2 => exact ⟨n2, by simp [lower_items, hL]⟩

/-- C2: the modelled Phase 3 session-access rule — a bare `self`
reference is rejected naming `self`; `self.session.<f>` with `f` outside
the recognized field set is rejected naming `f`; `self.<f>` for any
other field is rejected naming `f`; and any program containing such an
access makes the whole pipeline fail with an InvalidSessionAccess error,
so no generated output is produced. -/
theorem session_access_rejection :
    (lower_self (.identifier "self") = .error "self") ∧
    (∀ f, f ∉ sessionFields →
      lower_self (.member (.member (.identifier "self") "session") f) = .error f) ∧
    (∀ f, f ≠ "session" → lower_self (.member (.identifier "self") f) = .error f) ∧
    (∀ (g : CodeGenerator) (p : Program), hasBadSelfProgram p = true →
      ∃ n g2, compile_v3 g p = .err (.invalidSessionAccess n) g2) := by
  refine ⟨by simp [lower_self], ?_, ?_, ?_⟩
  · intro f hf
    simp [lower_self, lower_member, hf]
  · intro f _
    simp [lower_self, lower_member]
  · intro g p hb
    simp only [hasBadSelfProgram] at hb
    obtain ⟨n, hn⟩ := badlow_items _ hb
    refine ⟨n, g, ?_⟩
    simp [compile_v3, lower_session_program, hn]

/-- Witness for C2: the field `mailbox` is rejected in both member
forms, and a worker returning bare `self` makes the pipeline fail with
an InvalidSessionAccess error. -/
theorem session_access_rejection_witness :
    (("mailbox" : String) ∉ sessionFields ∧
      lower_self (.member (.member (.identifier "self") "session") "mailbox") =
        .error "mailbox") ∧
    (("mailbox" : String) ≠ "session" ∧
      lower_self (.member (.identifier "self") "mailbox") = .error "mailbox") ∧
    (∃ n g2, compile_v3 CodeGenerator.new
        ⟨[.worker ⟨"w", [], .mk [.ret (some (.identifier "self"))]⟩]⟩ =
      .err (.invalidSessionAccess n) g2) :=
  ⟨⟨by decide, session_access_rejection.2.1 "mailbox" (by decide)⟩,
   ⟨by decide, session_access_rejection.2.2.1 "mailbox" (by decide)⟩,
   session_access_rejection.2.2.2 CodeGenerator.new _
     (by simp [hasBadSelfProgram, hasBadSelfItem, hasBadSelfBlock, hasBadSelfStmts,
       hasBadSelfStmt, hasBadSelfE])⟩

/-- C1: the modelled Phase 3 worker lowering prepends the implicit
session parameter — the lowered worker keeps its name, its parameter
list is `session` followed by the declared parameters in order, and the
generated callable's parameter list text is `session` first with each
declared parameter following, comma-separated, in declaration order. -/
theorem worker_session_param :
    ∀ (g : CodeGenerator) (w w2 : WorkerDecl),
      lower_session_item (.worker w) = .ok (.worker w2) →
      (w2.name = w.name ∧ w2.params = ⟨"session"⟩ :: w.params) ∧
      (∀ gf, generate_worker g w2 = .ok gf →
        ∃ body, gf.output = g.output ++ ("export function " ++ (w.name ++ ("(" ++
          (("session" ++ paramsTextTail w.params) ++
            (") \x7b\n" ++ (body ++ "\x7d\n"))))))) := by
  intro g w w2 h
  simp only [lower_session_item] at h
  cases hb : lower_block w.body with
  | error n =>
    rw [hb] at h
    exact Except.noConfusion h
  | ok b2 =>
    rw [hb] at h
    have hw2 : w2 = ⟨w.name, ⟨"session"⟩ :: w.params, b2⟩ := by
      injection h with h1
      injection h1 with h2
      exact h2.symm
    subst hw2
    refine ⟨⟨rfl, rfl⟩, ?_⟩
    intro gf hgen
    obtain ⟨body, hout⟩ := worker_output g _ gf hgen
    refine ⟨body, ?_⟩
    simpa [paramsText, paramsTextTail] using hout

/-- Witness for C1: lowering and generating `worker example(a)` yields a
callable whose parameter list is `(session, a)`. -/
theorem worker_session_param_witness :
    ∃ body, ({ indent := 0, output := "export function example(session, a) \x7b\n\x7d\n" } : CodeGenerator).output =
      CodeGenerator.new.output ++ ("export function " ++ ("example" ++ ("(" ++
        (("session" ++ paramsTextTail [⟨"a"⟩]) ++ (") \x7b\n" ++ (body ++ "\x7d\n")))))) :=
  (worker_session_param CodeGenerator.new ⟨"example", [⟨"a"⟩], .mk []⟩
      ⟨"example", [⟨"session"⟩, ⟨"a"⟩], .mk []⟩
      (by simp [lower_session_item, lower_block, lower_stmts])).2 _
    (by simp [generate_worker, generate_params, params_loop, generate_block, generate_stmts,
      CodeGenerator.push, CodeGenerator.new, CodeGenerator.incIndent, CodeGenerator.decIndent,
      GenRes.andThen])

end Patchwork
